import Mathlib

/-!
# depixelator command-line driver (`src/main.cpp`)

A shallow embedding of `main.cpp`: the option loop of `main`, the default
configuration block, the processing pipeline and the two fill renderers.

Conventions of the embedding.

* `float` values are carried in an arbitrary type `F`: `main` never computes
  with them, it only stores them and hands them on.  The three `float`
  literals of the source are fields of `Env`.
* The functions of `depixelator.h` (`findContours`, `traceSlopes`, `smoothen`,
  `simplifyRDP`, `convertToCubicPath`) and of Qt / libc (`toFloat`, `toInt`,
  `atoi`, image loading) are parameters, collected in `Env`.
* Calls that leave `main` are recorded, in program order, as a list of
  `Event`s.  `qDebug` diagnostics are not recorded.
* `argv[argc]` is the null pointer; reading it is `none`.
-/

set_option autoImplicit false

namespace Depixelator

/-! ## Data model -/

/-- The `Point` of `depixelator.h`: two `float` coordinates. -/
structure Point (F : Type) where
  x : F
  y : F
deriving DecidableEq, Repr

/-- The `Polyline` of `depixelator.h`: a `std::vector<Point>`. -/
abbrev Polyline (F : Type) := List (Point F)

/-- The `Bitmap` that `main` fills in (lines 281-285). -/
structure Bitmap where
  data : List Nat
  width : Nat
  height : Nat
  stride : Nat
deriving DecidableEq, Repr

/-- The local variables of `main` that hold the configuration (lines 136-156). -/
structure Config (F : Type) where
  file : String
  scaleFactor : Int
  renderGrid : Bool
  renderSource : Bool
  renderRaw : Bool
  renderFill : Bool
  renderStroke : Bool
  renderPoints : Bool
  processReduce : Bool
  reduceThreshold : F
  processSmoothBeforeReduce : Bool
  processSmooth : Bool
  smoothIterations : Int
  smoothFactor : F
  processTraceSlopes : Bool
  processBezier : Bool
deriving DecidableEq, Repr

/-- What `main.cpp` calls but does not define. -/
structure Env (F : Type) where
  /-- Qt's `QString::toFloat(&ok)`: `none` when `ok` comes back false. -/
  toFloat : String → Option F
  /-- Qt's `QString::toInt(&ok)`: `none` when `ok` comes back false. -/
  toInt : String → Option Int
  /-- The C library's `atoi` on a non-null C string. -/
  atoi : String → Int
  /-- The literal `0.0f`. -/
  lit0 : F
  /-- The literal `0.01f`. -/
  lit001 : F
  /-- The literal `0.1f` (line 249 writes `0.1`, which converts to the same float). -/
  lit01 : F
  /-- The image `QImage(file).convertToFormat(Format_MonoLSB)` read into a `Bitmap`
  (lines 275-285); a file that fails to load gives width and height 0. -/
  loadBitmap : String → Bitmap
  findContours : Bitmap → List (Polyline F)
  traceSlopes : Polyline F → Polyline F
  smoothen : Polyline F → F → Int → Polyline F
  simplifyRDP : Polyline F → F → Polyline F
  convertToCubicPath : Polyline F → Polyline F

/-! ## The option loop (lines 158-225) -/

/-- Reading `argv[i]`: entries `0 .. argc-1` are the arguments, `argv[argc]`
is the null pointer (`none`). -/
def argvRead (argv : List String) (i : Nat) : Option String := argv[i]?

/-- Qt's `QString::fromLocal8Bit(p)`: a null pointer gives the null (empty) string. -/
def fromLocal8Bit (p : Option String) : String := p.getD ""

/-- The call `QString::fromLocal8Bit(p).toFloat(&ok)`: the null string never converts. -/
def toFloatAt {F : Type} (env : Env F) (p : Option String) : Option F :=
  p.bind env.toFloat

/-- The call `QString::fromLocal8Bit(p).toInt(&ok)`: the null string never converts. -/
def toIntAt {F : Type} (env : Env F) (p : Option String) : Option Int :=
  p.bind env.toInt

/-- The initial values of lines 136-156. -/
def initConfig {F : Type} (env : Env F) : Config F where
  file := ""
  scaleFactor := 20
  renderGrid := false
  renderSource := false
  renderRaw := false
  renderFill := false
  renderStroke := false
  renderPoints := false
  processReduce := false
  reduceThreshold := env.lit0
  processSmoothBeforeReduce := false
  processSmooth := false
  smoothIterations := 0
  smoothFactor := env.lit0
  processTraceSlopes := false
  processBezier := false

/-- What one pass through the body of the option loop does. -/
inductive Step (F : Type) where
  /-- The body ran to its end having advanced `i` by `consumed` itself; the
  loop header then adds one more. -/
  | next (consumed : Nat) (c : Config F)
  /-- Lines 221-223: `printHelp(argv[0]); return 0;`. -/
  | help
  /-- Line 164 with `argv[i+1]` null: `atoi` of a null pointer, which C leaves
  undefined. -/
  | undefined
deriving DecidableEq, Repr

/-- The guard `i <= argc - 1` of lines 160, 163, 187, 200 and 211, in `int`
arithmetic. -/
def hasNext (argv : List String) (i : Nat) : Prop := (i : Int) ≤ (argv.length : Int) - 1

instance (argv : List String) (i : Nat) : Decidable (hasNext argv i) := by
  unfold hasNext; infer_instance

/-- Lines 184-196, the `--reduce` branch: the new configuration, how far the
branch advanced `i`, and the indices of `argv` it read. -/
def reduceBranch {F : Type} (env : Env F) (argv : List String) (i : Nat) (c : Config F) :
    Step F × List Nat :=
  let c := { c with processReduce := true }
  if hasNext argv i then
    match toFloatAt env (argvRead argv (i + 1)) with
    | some v => (.next 1 { c with reduceThreshold := v }, [i + 1])
    | none => (.next 0 { c with reduceThreshold := env.lit001 }, [i + 1])
  else
    (.next 0 { c with reduceThreshold := env.lit001 }, [])

/-- Lines 197-220, the `--smooth` branch. -/
def smoothBranch {F : Type} (env : Env F) (argv : List String) (i : Nat) (c : Config F) :
    Step F × List Nat :=
  let c := { c with processSmooth := true }
  -- lines 199-209: `k` counts the `++i` done so far
  let r1 : Nat × Config F × List Nat :=
    if hasNext argv i then
      match toFloatAt env (argvRead argv (i + 1)) with
      | some v => (1, { c with smoothFactor := v }, [i + 1])
      | none => (0, { c with smoothFactor := env.lit01 }, [i + 1])
    else
      (0, { c with smoothFactor := env.lit01 }, [])
  let k := r1.1
  let c := r1.2.1
  -- lines 210-220, where `i` is now `i + k`
  if hasNext argv (i + k) then
    match toIntAt env (argvRead argv (i + k + 1)) with
    | some v => (.next (k + 1) { c with smoothIterations := v }, r1.2.2 ++ [i + k + 1])
    | none => (.next k { c with smoothIterations := 1 }, r1.2.2 ++ [i + k + 1])
  else
    (.next k { c with smoothIterations := 1 }, r1.2.2)

/-- The body of the option loop at index `i` (lines 159-224), with the
indices of `argv` it reads, in order. -/
def optStep {F : Type} (env : Env F) (argv : List String) (i : Nat) (c : Config F) :
    Step F × List Nat :=
  let arg := fromLocal8Bit (argvRead argv i)
  if arg = "--file" ∧ hasNext argv i then
    (.next 1 { c with file := fromLocal8Bit (argvRead argv (i + 1)) }, [i, i + 1])
  else if arg = "--scale" ∧ hasNext argv i then
    match argvRead argv (i + 1) with
    | some s => (.next 1 { c with scaleFactor := env.atoi s }, [i, i + 1])
    | none => (.undefined, [i, i + 1])
  else if arg = "--render-grid" then (.next 0 { c with renderGrid := true }, [i])
  else if arg = "--render-source" then (.next 0 { c with renderSource := true }, [i])
  else if arg = "--render-raw" then (.next 0 { c with renderRaw := true }, [i])
  else if arg = "--render-points" then (.next 0 { c with renderPoints := true }, [i])
  else if arg = "--render-fill" then (.next 0 { c with renderFill := true }, [i])
  else if arg = "--render-stroke" then (.next 0 { c with renderStroke := true }, [i])
  else if arg = "--cubic-beziers" then (.next 0 { c with processBezier := true }, [i])
  else if arg = "--trace-slopes" then (.next 0 { c with processTraceSlopes := true }, [i])
  else if arg = "--smooth-before-reduce" then
    (.next 0 { c with processSmoothBeforeReduce := true }, [i])
  else if arg = "--reduce" then
    let r := reduceBranch env argv i c
    (r.1, i :: r.2)
  else if arg = "--smooth" then
    let r := smoothBranch env argv i c
    (r.1, i :: r.2)
  else if arg = "-h" ∨ arg = "--help" then (.help, [i])
  else (.next 0 c, [i])

/-- How the option loop ends. -/
inductive ParseResult (F : Type) where
  /-- The loop ran off the end of `argv` with this configuration. -/
  | ok (c : Config F)
  | help
  | undefined
deriving DecidableEq, Repr

/-- The option loop from index `i` on: `for (; i < argc; ++i) body`, with the
indices of `argv` read so far. -/
def optLoop {F : Type} (env : Env F) (argv : List String) (i : Nat) (c : Config F)
    (reads : List Nat) : ParseResult F × List Nat :=
  if i < argv.length then
    match optStep env argv i c with
    | (.next k c', r) => optLoop env argv (i + k + 1) c' (reads ++ r)
    | (.help, r) => (.help, reads ++ r)
    | (.undefined, r) => (.undefined, reads ++ r)
  else
    (.ok c, reads)
termination_by argv.length - i
decreasing_by omega

/-- Lines 136-225: the option loop started at `i = 1` on the initial values. -/
def parseArgs {F : Type} (env : Env F) (argv : List String) : ParseResult F × List Nat :=
  optLoop env argv 1 (initConfig env) []

/-! ## The default configuration (lines 227-255) -/

/-- Lines 232-255: when no `--render-*` flag was given, the defaults are
chosen. -/
def chooseDefaults {F : Type} (env : Env F) (c : Config F) : Config F :=
  if (!c.renderGrid && !c.renderSource && !c.renderRaw && !c.renderFill
      && !c.renderStroke && !c.renderPoints) = true then
    { c with
      renderGrid := true
      renderSource := true
      renderStroke := false
      renderFill := true
      processReduce := true
      reduceThreshold := env.lit001
      processSmooth := true
      smoothFactor := env.lit01
      smoothIterations := 10
      processSmoothBeforeReduce := true
      processBezier := true }
  else c

/-! ## Events and painter paths -/

/-- A `QColor` by its red, green, blue and alpha components. -/
structure Color where
  r : Nat
  g : Nat
  b : Nat
  a : Nat
deriving DecidableEq, Repr

/-- A command appended to a `QPainterPath`. -/
inductive PathCmd (F : Type) where
  | moveTo (x y : F)
  | lineTo (x y : F)
  | cubicTo (c1x c1y c2x c2y x y : F)
deriving DecidableEq, Repr

/-- A call that leaves `main`. -/
inductive Event (F : Type) where
  | render_grid (map : Bitmap)
  | render_bitmap (map : Bitmap)
  | findContours (map : Bitmap)
  | render_polylines (polylines : List (Polyline F)) (color : Color)
  | traceSlopes (poly : Polyline F)
  | smoothen (poly : Polyline F) (factor : F) (iterations : Int)
  | simplifyRDP (poly : Polyline F) (threshold : F)
  | convertToCubicPath (poly : Polyline F)
  | fillPath (path : List (PathCmd F)) (color : Color)
  | render_polylinePoints (polylines : List (Polyline F)) (color : Color)
  | save (fileName : String)
deriving DecidableEq, Repr

/-! ## The fill renderers (lines 96-132) -/

/-- Lines 102-110: the points of one polyline appended to `path`, the first by
`moveTo`, the others by `lineTo`. -/
def fillPolyline {F : Type} (path : List (PathCmd F)) (poly : Polyline F) : List (PathCmd F) :=
  (poly.foldl
    (fun (st : Bool × List (PathCmd F)) pt =>
      if st.1 then (false, st.2 ++ [PathCmd.moveTo pt.x pt.y])
      else (false, st.2 ++ [PathCmd.lineTo pt.x pt.y]))
    (true, path)).2

/-- The path that `render_fillPolylines` (lines 96-113) fills. -/
def render_fillPolylines {F : Type} (polylines : List (Polyline F)) : List (PathCmd F) :=
  polylines.foldl fillPolyline []

/-- The modulus of `unsigned int`. -/
def uintModulus : Nat := 4294967296

/-- How the inner loop of `render_fillCubicPath` ends. -/
inductive CubicResult (F : Type) where
  /-- The loop left with this path, having read these indices of `poly`. -/
  | done (path : List (PathCmd F)) (reads : List Nat)
  /-- An index at or beyond `poly.size()` was read. -/
  | undefined
  /-- The loop was still running when the fuel ran out. -/
  | outOfFuel
deriving DecidableEq, Repr

/-- Lines 124-128: `for (unsigned int i = ..; i < poly.size(); i += 3)
path.cubicTo(poly[i+0], poly[i+1], poly[i+2])`.  The index `i` and the sums
`i+0`, `i+1`, `i+2`, `i+3` are `unsigned int`; `poly.size()` is not bounded by
that type. -/
def cubicLoop {F : Type} (poly : Polyline F) :
    Nat → Nat → List (PathCmd F) → List Nat → CubicResult F
  | 0, _, _, _ => .outOfFuel
  | fuel + 1, i, path, reads =>
    if i < poly.length then
      let i0 := (i + 0) % uintModulus
      let i1 := (i + 1) % uintModulus
      let i2 := (i + 2) % uintModulus
      match poly[i0]?, poly[i1]?, poly[i2]? with
      | some p0, some p1, some p2 =>
        cubicLoop poly fuel ((i + 3) % uintModulus)
          (path ++ [PathCmd.cubicTo p0.x p0.y p1.x p1.y p2.x p2.y])
          (reads ++ [i0, i1, i2])
      | _, _, _ => .undefined
    else .done path reads

/-- Lines 121-128: what one polyline adds to `path`. -/
def fillCubicPolyline {F : Type} (fuel : Nat) (path : List (PathCmd F)) (poly : Polyline F) :
    CubicResult F :=
  if poly.length < 4 then .done path []
  else
    match poly[0]? with
    | some p => cubicLoop poly fuel 1 (path ++ [PathCmd.moveTo p.x p.y]) [0]
    | none => .undefined

/-- The outer loop of `render_fillCubicPath` (lines 120-130) over the
polylines left, from the path built so far. -/
def fillCubicFrom {F : Type} (fuel : Nat) :
    List (Polyline F) → List (PathCmd F) → CubicResult F
  | [], path => .done path []
  | poly :: rest, path =>
    match fillCubicPolyline fuel path poly with
    | .done path' _ => fillCubicFrom fuel rest path'
    | .undefined => .undefined
    | .outOfFuel => .outOfFuel

/-- The path that `render_fillCubicPath` (lines 115-132) fills. -/
def render_fillCubicPath {F : Type} (fuel : Nat) (polylines : List (Polyline F)) :
    CubicResult F :=
  fillCubicFrom fuel polylines []

/-! ## The processing pipeline (lines 303-374) -/

/-- The loop `for (auto poly : polylines) tmp.push_back(f(poly));`, with the
call of `f` on each polyline recorded. -/
def stageLoop {F : Type} (f : Polyline F → Polyline F) (ev : Polyline F → Event F)
    (polylines : List (Polyline F)) : List (Event F) × List (Polyline F) :=
  polylines.foldl (fun acc poly => (acc.1 ++ [ev poly], acc.2 ++ [f poly])) ([], [])

/-- Lines 311-326. -/
def traceSlopesStage {F : Type} (env : Env F) (c : Config F) (polylines : List (Polyline F)) :
    List (Event F) × List (Polyline F) :=
  if c.processTraceSlopes = true then
    stageLoop env.traceSlopes Event.traceSlopes polylines
  else ([], polylines)

/-- Lines 328-336. -/
def smoothFirstStage {F : Type} (env : Env F) (c : Config F) (polylines : List (Polyline F)) :
    List (Event F) × List (Polyline F) :=
  if (c.processSmooth && c.processSmoothBeforeReduce) = true then
    stageLoop (fun poly => env.smoothen poly c.smoothFactor c.smoothIterations)
      (fun poly => Event.smoothen poly c.smoothFactor c.smoothIterations) polylines
  else ([], polylines)

/-- Lines 338-354. -/
def reduceStage {F : Type} (env : Env F) (c : Config F) (polylines : List (Polyline F)) :
    List (Event F) × List (Polyline F) :=
  if c.processReduce = true then
    stageLoop (fun poly => env.simplifyRDP poly c.reduceThreshold)
      (fun poly => Event.simplifyRDP poly c.reduceThreshold) polylines
  else ([], polylines)

/-- Lines 356-364. -/
def smoothLastStage {F : Type} (env : Env F) (c : Config F) (polylines : List (Polyline F)) :
    List (Event F) × List (Polyline F) :=
  if (c.processSmooth && !c.processSmoothBeforeReduce) = true then
    stageLoop (fun poly => env.smoothen poly c.smoothFactor c.smoothIterations)
      (fun poly => Event.smoothen poly c.smoothFactor c.smoothIterations) polylines
  else ([], polylines)

/-- Lines 366-374. -/
def bezierStage {F : Type} (env : Env F) (c : Config F) (polylines : List (Polyline F)) :
    List (Event F) × List (Polyline F) :=
  if c.processBezier = true then
    stageLoop env.convertToCubicPath Event.convertToCubicPath polylines
  else ([], polylines)

/-- Lines 328-364: the smoothing and reduction blocks, in program order. -/
def smoothReduceStages {F : Type} (env : Env F) (c : Config F) (polylines : List (Polyline F)) :
    List (Event F) × List (Polyline F) :=
  let s1 := smoothFirstStage env c polylines
  let s2 := reduceStage env c s1.2
  let s3 := smoothLastStage env c s2.2
  (s1.1 ++ s2.1 ++ s3.1, s3.2)

/-- Lines 303-374: contour extraction, the optional raw rendering, and the
stages; the calls made and the polylines left in `polylines` at line 375. -/
def pipeline {F : Type} (env : Env F) (c : Config F) (map : Bitmap) :
    List (Event F) × List (Polyline F) :=
  let polylines := env.findContours map
  let raw : List (Event F) :=
    if c.renderRaw = true then [Event.render_polylines polylines ⟨255, 0, 0, 100⟩] else []
  let s1 := traceSlopesStage env c polylines
  let s2 := smoothReduceStages env c s1.2
  let s3 := bezierStage env c s2.2
  (Event.findContours map :: raw ++ s1.1 ++ s2.1 ++ s3.1, s3.2)

/-! ## `main` -/

/-- Where `main` stands at line 375. -/
inductive Front (F : Type) where
  /-- `printHelp(argv[0]); return 0;` (lines 222-223 or 228-229). -/
  | help
  /-- Line 164 ran `atoi` on a null pointer. -/
  | undefined
  /-- The pipeline ran: the configuration in force, the bitmap, the calls made
  so far and the polylines to render. -/
  | staged (c : Config F) (map : Bitmap) (log : List (Event F))
      (polylines : List (Polyline F))
deriving DecidableEq, Repr

/-- Lines 134-374 of `main`. -/
def mainFront {F : Type} (env : Env F) (argv : List String) : Front F :=
  match (parseArgs env argv).1 with
  | .help => .help
  | .undefined => .undefined
  | .ok c0 =>
    if c0.file = "" then .help
    else
      let c := chooseDefaults env c0
      let map := env.loadBitmap c.file
      let grid : List (Event F) := if c.renderGrid = true then [Event.render_grid map] else []
      let source : List (Event F) :=
        if c.renderSource = true then [Event.render_bitmap map] else []
      let p := pipeline env c map
      .staged c map (grid ++ source ++ p.1) p.2

/-- Lines 376-395 of `main`: the calls made from line 376 on, `none` when the
fuel runs out inside `render_fillCubicPath` and `some none` when that
function reads outside a polyline. -/
def mainRender {F : Type} (fuel : Nat) (c : Config F) (polylines : List (Polyline F)) :
    Option (Option (List (Event F))) :=
  let rest : List (Event F) :=
    (if c.renderStroke = true then [Event.render_polylines polylines ⟨0, 0, 0, 255⟩] else [])
    ++ (if c.renderPoints = true then [Event.render_polylinePoints polylines ⟨255, 0, 0, 100⟩]
        else [])
    ++ [Event.save "result.png"]
  if c.renderFill = true then
    if c.processBezier = true then
      match render_fillCubicPath fuel polylines with
      | .done path _ => some (some (Event.fillPath path ⟨0, 0, 0, 155⟩ :: rest))
      | .undefined => some none
      | .outOfFuel => none
    else
      some (some (Event.fillPath (render_fillPolylines polylines) ⟨0, 0, 0, 150⟩ :: rest))
  else some (some rest)

/-- How a run of `main` ends. -/
inductive Outcome (F : Type) where
  /-- The usage text was printed and nothing else done. -/
  | help
  /-- The run left defined behaviour. -/
  | undefined
  /-- The run reached `return 0` at line 397 with this configuration in force,
  having made these calls. -/
  | ran (c : Config F) (log : List (Event F))
deriving DecidableEq, Repr

/-- The function `main`; `none` when the fuel runs out. -/
def main {F : Type} (fuel : Nat) (env : Env F) (argv : List String) : Option (Outcome F) :=
  match mainFront env argv with
  | .help => some .help
  | .undefined => some .undefined
  | .staged c _ log polylines =>
    match mainRender fuel c polylines with
    | none => none
    | some none => some .undefined
    | some (some rest) => some (.ran c (log ++ rest))


/-! ## Reading the event log -/

/-- The polyline a `traceSlopes` call receives. -/
def Event.traceSlopesArg {F : Type} : Event F → Option (Polyline F)
  | .traceSlopes p => some p
  | _ => none

/-- The polyline a `smoothen` or `simplifyRDP` call receives. -/
def Event.smoothReduceArg {F : Type} : Event F → Option (Polyline F)
  | .smoothen p _ _ => some p
  | .simplifyRDP p _ => some p
  | _ => none

/-- Whether the event is a call of `traceSlopes`. -/
def Event.isTraceSlopes {F : Type} : Event F → Bool
  | .traceSlopes _ => true
  | _ => false

/-- Whether the event is a call of `smoothen`. -/
def Event.isSmoothen {F : Type} : Event F → Bool
  | .smoothen _ _ _ => true
  | _ => false

/-- Whether the event is a call of `simplifyRDP`. -/
def Event.isSimplifyRDP {F : Type} : Event F → Bool
  | .simplifyRDP _ _ => true
  | _ => false

/-- Whether the event is a call of `convertToCubicPath`. -/
def Event.isBezier {F : Type} : Event F → Bool
  | .convertToCubicPath _ => true
  | _ => false

/-! ## The pipeline as the specification words it

`bezier?(smooth/simplify(slope?(p)))`, polyline by polyline. -/

/-- Specification side: slope tracing when enabled, the polyline itself
otherwise. -/
def specSlope {F : Type} (env : Env F) (c : Config F) (p : Polyline F) : Polyline F :=
  if c.processTraceSlopes = true then env.traceSlopes p else p

/-- Specification side: smoothing and reduction in the order the flag
chooses, each only when enabled. -/
def specSmoothReduce {F : Type} (env : Env F) (c : Config F) (p : Polyline F) : Polyline F :=
  match c.processSmooth, c.processReduce, c.processSmoothBeforeReduce with
  | true, true, true =>
    env.simplifyRDP (env.smoothen p c.smoothFactor c.smoothIterations) c.reduceThreshold
  | true, true, false =>
    env.smoothen (env.simplifyRDP p c.reduceThreshold) c.smoothFactor c.smoothIterations
  | true, false, _ => env.smoothen p c.smoothFactor c.smoothIterations
  | false, true, _ => env.simplifyRDP p c.reduceThreshold
  | false, false, _ => p

/-- Specification side: curve fitting when enabled, the polyline itself
otherwise. -/
def specBezier {F : Type} (env : Env F) (c : Config F) (p : Polyline F) : Polyline F :=
  if c.processBezier = true then env.convertToCubicPath p else p

/-! ## A concrete environment for the examples -/

/-- A fragment of `QString::toFloat`: the decimal tokens used in the examples,
each with the value it denotes; option names and other words do not convert. -/
def exampleToFloat (s : String) : Option ℚ :=
  if s = "-1" then some (-1)
  else if s = "2" then some 2
  else if s = "3" then some 3
  else if s = "0.5" then some (1 / 2)
  else none

/-- A fragment of `QString::toInt`: the integer tokens used in the examples. -/
def exampleToInt (s : String) : Option Int :=
  if s = "-1" then some (-1)
  else if s = "2" then some 2
  else if s = "3" then some 3
  else none

/-- The outline of one filled pixel. -/
def unitSquare : Polyline ℚ := [⟨0, 0⟩, ⟨1, 0⟩, ⟨1, 1⟩, ⟨0, 1⟩]

/-- An environment to evaluate `main` in: `dot.png` is a one-pixel image,
every other file fails to load; an image without pixels has no contour, any
other has the outline of one pixel; each stage marks the polyline it is given
by putting one point in front of it, which carries the stage (x = 100 for
`traceSlopes`, 200 for `smoothen`, 300 for `simplifyRDP`, 400 for
`convertToCubicPath`) and, for `smoothen` and `simplifyRDP`, the factor or
threshold received. -/
def exampleEnv : Env ℚ where
  toFloat := exampleToFloat
  toInt := exampleToInt
  atoi := fun s => (exampleToInt s).getD 0
  lit0 := 0
  lit001 := 1 / 100
  lit01 := 1 / 10
  loadBitmap := fun file => if file = "dot.png" then ⟨[1, 0, 0, 0], 1, 1, 4⟩ else ⟨[], 0, 0, 0⟩
  findContours := fun map => if map.width = 0 ∨ map.height = 0 then [] else [unitSquare]
  traceSlopes := fun p => ⟨100, 0⟩ :: p
  smoothen := fun p factor _ => ⟨200, factor⟩ :: p
  simplifyRDP := fun p threshold => ⟨300, threshold⟩ :: p
  convertToCubicPath := fun p => ⟨400, 0⟩ :: p

/-- The bitmap of `dot.png` in `exampleEnv`. -/
def dotBitmap : Bitmap := ⟨[1, 0, 0, 0], 1, 1, 4⟩

/-- What the option loop makes of `outOfRangeArgs`. -/
def outOfRangeConfig : Config ℚ where
  file := "dot.png"
  scaleFactor := 20
  renderGrid := false
  renderSource := false
  renderRaw := false
  renderFill := false
  renderStroke := true
  renderPoints := false
  processReduce := true
  reduceThreshold := -1
  processSmoothBeforeReduce := false
  processSmooth := true
  smoothIterations := -1
  smoothFactor := 2
  processTraceSlopes := false
  processBezier := false

/-- The bitmap of an image that failed to load. -/
def nullBitmap : Bitmap := ⟨[], 0, 0, 0⟩

/-- The configuration that lines 232-255 choose, for the given file, scale
and trace-slopes flag. -/
def defaultConfig {F : Type} (env : Env F) (file : String) (scaleFactor : Int)
    (processTraceSlopes : Bool) : Config F where
  file := file
  scaleFactor := scaleFactor
  renderGrid := true
  renderSource := true
  renderRaw := false
  renderFill := true
  renderStroke := false
  renderPoints := false
  processReduce := true
  reduceThreshold := env.lit001
  processSmoothBeforeReduce := true
  processSmooth := true
  smoothIterations := 10
  smoothFactor := env.lit01
  processTraceSlopes := processTraceSlopes
  processBezier := true

/-- A polyline of three points. -/
def triangle : Polyline ℚ := [⟨0, 0⟩, ⟨1, 0⟩, ⟨0, 1⟩]

/-- Specification side: a polyline drawn as a straight-edged shape, a `moveTo`
to its first point followed by a `lineTo` for each further point. -/
def specStraightEdges {F : Type} : Polyline F → List (PathCmd F)
  | [] => []
  | p :: rest => PathCmd.moveTo p.x p.y :: rest.map (fun q => PathCmd.lineTo q.x q.y)

/-- A cubic path of two segments. -/
def twoSegments : Polyline ℚ :=
  [⟨0, 0⟩, ⟨1, 0⟩, ⟨2, 1⟩, ⟨2, 2⟩, ⟨2, 3⟩, ⟨1, 4⟩, ⟨0, 4⟩]

/-- A polyline of `2^32` points, all at the origin. -/
def hugePolyline : Polyline ℚ := List.replicate uintModulus ⟨0, 0⟩

/-! ## Optional option values as the help text words them

`--reduce [threshold]?` and `--smooth [fac]? [it]?`, read off the list of the
tokens that follow the option. -/

/-- Specification side: an optional `float` value.  The next token is the
value, and is consumed, when it parses as a float; otherwise the default is
taken and no token is consumed. -/
def specOptionalFloat {F : Type} (env : Env F) (dflt : F) :
    List String → F × List String
  | [] => (dflt, [])
  | tok :: more =>
    match env.toFloat tok with
    | some v => (v, more)
    | none => (dflt, tok :: more)

/-- Specification side: an optional `int` value, in the same way. -/
def specOptionalInt {F : Type} (env : Env F) (dflt : Int) :
    List String → Int × List String
  | [] => (dflt, [])
  | tok :: more =>
    match env.toInt tok with
    | some v => (v, more)
    | none => (dflt, tok :: more)

/-- The six `--render-*` flags of lines 166-177. -/
def renderFlagNames : List String :=
  ["--render-grid", "--render-source", "--render-raw", "--render-points", "--render-fill",
    "--render-stroke"]

/-- A command line without a `--render-*` flag that sets every processing
option. -/
def processingArgs : List String :=
  ["depixelator", "--file", "dot.png", "--scale", "3", "--trace-slopes", "--reduce", "2",
    "--smooth", "0.5", "3", "--cubic-beziers"]

/-- What the option loop makes of `processingArgs`. -/
def processingConfig : Config ℚ where
  file := "dot.png"
  scaleFactor := 3
  renderGrid := false
  renderSource := false
  renderRaw := false
  renderFill := false
  renderStroke := false
  renderPoints := false
  processReduce := true
  reduceThreshold := 2
  processSmoothBeforeReduce := false
  processSmooth := true
  smoothIterations := 3
  smoothFactor := 1 / 2
  processTraceSlopes := true
  processBezier := true


/-! ## Lemmas on the stage loops -/

theorem stageLoop_aux {F : Type} (f : Polyline F → Polyline F) (ev : Polyline F → Event F)
    (polylines : List (Polyline F)) (log : List (Event F)) (tmp : List (Polyline F)) :
    polylines.foldl (fun acc poly => (acc.1 ++ [ev poly], acc.2 ++ [f poly])) (log, tmp)
      = (log ++ polylines.map ev, tmp ++ polylines.map f) := by
  induction polylines generalizing log tmp with
  | nil => simp
  | cons p ps ih => simp [List.foldl_cons, ih]

theorem stageLoop_eq {F : Type} (f : Polyline F → Polyline F) (ev : Polyline F → Event F)
    (polylines : List (Polyline F)) :
    stageLoop f ev polylines = (polylines.map ev, polylines.map f) := by
  unfold stageLoop
  rw [stageLoop_aux]
  simp

theorem smoothReduceStages_eq {F : Type} (env : Env F) (c : Config F)
    (polylines : List (Polyline F)) :
    smoothReduceStages env c polylines
      = ((if (c.processSmooth && c.processSmoothBeforeReduce) = true then
            polylines.map (fun p => Event.smoothen p c.smoothFactor c.smoothIterations) else [])
          ++ (if c.processReduce = true then
            polylines.map (fun p => Event.simplifyRDP
              (if (c.processSmooth && c.processSmoothBeforeReduce) = true then
                env.smoothen p c.smoothFactor c.smoothIterations else p) c.reduceThreshold)
            else [])
          ++ (if (c.processSmooth && !c.processSmoothBeforeReduce) = true then
            polylines.map (fun p => Event.smoothen
              (if c.processReduce = true then env.simplifyRDP p c.reduceThreshold else p)
              c.smoothFactor c.smoothIterations) else []),
         polylines.map (fun p => specSmoothReduce env c p)) := by
  obtain ⟨fl, sc, rg, rs, rr, rf, rst, rp, red, thr, sbr, sm, it, fac, ts, bez⟩ := c
  cases sm <;> cases sbr <;> cases red <;>
    simp [smoothReduceStages, smoothFirstStage, reduceStage, smoothLastStage, stageLoop_eq,
      specSmoothReduce, Function.comp_def]

theorem pipeline_eq {F : Type} (env : Env F) (c : Config F) (map : Bitmap) :
    pipeline env c map
      = (Event.findContours map ::
          ((if c.renderRaw = true then
              [Event.render_polylines (env.findContours map) ⟨255, 0, 0, 100⟩] else [])
          ++ (if c.processTraceSlopes = true then
              (env.findContours map).map Event.traceSlopes else [])
          ++ (smoothReduceStages env c ((env.findContours map).map (fun p => specSlope env c p))).1
          ++ (if c.processBezier = true then
              ((env.findContours map).map
                (fun p => specSmoothReduce env c (specSlope env c p))).map
                  Event.convertToCubicPath else [])),
         (env.findContours map).map
           (fun p => specBezier env c (specSmoothReduce env c (specSlope env c p)))) := by
  have h1 : traceSlopesStage env c (env.findContours map)
      = (if c.processTraceSlopes = true then
          (env.findContours map).map Event.traceSlopes else [],
         (env.findContours map).map (fun p => specSlope env c p)) := by
    unfold traceSlopesStage specSlope
    cases c.processTraceSlopes <;> simp [stageLoop_eq]
  have h3 : ∀ ps : List (Polyline F), bezierStage env c ps
      = (if c.processBezier = true then ps.map Event.convertToCubicPath else [],
         ps.map (fun p => specBezier env c p)) := by
    intro ps
    unfold bezierStage specBezier
    cases c.processBezier <;> simp [stageLoop_eq]
  simp only [pipeline, h1, h3, smoothReduceStages_eq, List.map_map, Function.comp_def, List.cons_append,
    List.append_assoc]

theorem mainFront_staged {F : Type} (env : Env F) (argv : List String) (c : Config F)
    (map : Bitmap) (log : List (Event F)) (polylines : List (Polyline F))
    (h : mainFront env argv = .staged c map log polylines) :
    ∃ c0, (parseArgs env argv).1 = .ok c0 ∧ c0.file ≠ "" ∧ c = chooseDefaults env c0
      ∧ map = env.loadBitmap c.file
      ∧ log = (if c.renderGrid = true then [Event.render_grid map] else [])
          ++ (if c.renderSource = true then [Event.render_bitmap map] else [])
          ++ (pipeline env c map).1
      ∧ polylines = (pipeline env c map).2 := by
  unfold mainFront at h
  split at h
  · cases h
  · cases h
  · rename_i c0 hc0
    split at h
    · cases h
    · rename_i hfile
      simp only [Front.staged.injEq] at h
      obtain ⟨h1, h2, h3, h4⟩ := h
      refine ⟨c0, hc0, hfile, h1.symm, ?_, ?_, ?_⟩
      · rw [← h2, ← h1]
      · rw [← h3, ← h2, ← h1]
      · rw [← h4, ← h2, ← h1]

/-- C1 (stage order of the pipeline, lines 303-374).  For every configuration
and bitmap: the polylines handed to rendering are
`bezier?(smooth/simplify(slope?(p)))` for each contour `p` of `findContours`,
in order; when slope tracing is enabled `traceSlopes` is called on exactly the
raw contours; every polyline that `smoothen` or `simplifyRDP` receives is then a
traced contour, or one that was traced and after that smoothed or simplified;
and the calls of `convertToCubicPath` are the last calls of the pipeline, made
on the polylines that every other enabled stage has already processed. -/
theorem pipeline_stage_order {F : Type} (env : Env F) (c : Config F) (map : Bitmap) :
    (pipeline env c map).2
        = (env.findContours map).map
            (fun p => specBezier env c (specSmoothReduce env c (specSlope env c p)))
    ∧ (c.processTraceSlopes = true →
        (pipeline env c map).1.filterMap Event.traceSlopesArg = env.findContours map)
    ∧ (c.processTraceSlopes = true →
        ∀ e ∈ (pipeline env c map).1, ∀ p, e.smoothReduceArg = some p →
          ∃ q ∈ env.findContours map,
            p = env.traceSlopes q
            ∨ p = env.smoothen (env.traceSlopes q) c.smoothFactor c.smoothIterations
            ∨ p = env.simplifyRDP (env.traceSlopes q) c.reduceThreshold)
    ∧ (∃ before,
        (pipeline env c map).1
          = before ++ (if c.processBezier = true then
              ((env.findContours map).map
                (fun p => specSmoothReduce env c (specSlope env c p))).map
                  Event.convertToCubicPath
              else [])
        ∧ ∀ e ∈ before, e.isBezier = false) := by
  refine ⟨?_, ?_, ?_, ?_⟩
  · rw [pipeline_eq]
  · intro h
    rw [pipeline_eq, smoothReduceStages_eq]
    obtain ⟨fl, sc, rg, rs, rr, rf, rst, rp, red, thr, sbr, sm, it, fac, ts, bez⟩ := c
    simp only at h
    subst h
    cases rr <;> cases sm <;> cases sbr <;> cases red <;> cases bez <;>
      simp [List.filterMap_append, List.filterMap_map, Function.comp_def, Event.traceSlopesArg,
        List.filterMap_cons]
  · intro h e he p hp
    rw [pipeline_eq, smoothReduceStages_eq] at he
    obtain ⟨fl, sc, rg, rs, rr, rf, rst, rp, red, thr, sbr, sm, it, fac, ts, bez⟩ := c
    simp only at h
    subst h
    simp only [List.mem_cons, List.mem_append, List.mem_map, specSlope, if_true,
      List.map_map, Function.comp_def] at he
    have key : ∀ q ∈ env.findContours map, ∀ r,
        (r = env.traceSlopes q ∨ r = env.smoothen (env.traceSlopes q) fac it
          ∨ r = env.simplifyRDP (env.traceSlopes q) thr) →
        ∃ q ∈ env.findContours map,
          r = env.traceSlopes q ∨ r = env.smoothen (env.traceSlopes q) fac it
            ∨ r = env.simplifyRDP (env.traceSlopes q) thr := fun q hq r hr => ⟨q, hq, hr⟩
    rcases he with he | ((((he | he) | (he | he) | he) | he))
    · subst he; simp [Event.smoothReduceArg] at hp
    · split at he
      · simp only [List.mem_singleton] at he; subst he; simp [Event.smoothReduceArg] at hp
      · simp at he
    · obtain ⟨a, _, rfl⟩ := he; simp [Event.smoothReduceArg] at hp
    · split at he
      · simp only [List.mem_map] at he
        obtain ⟨a, ha, rfl⟩ := he
        simp only [Event.smoothReduceArg, Option.some.injEq] at hp
        exact key a ha p (Or.inl hp.symm)
      · simp at he
    · split at he
      · simp only [List.mem_map] at he
        obtain ⟨a, ha, rfl⟩ := he
        simp only [Event.smoothReduceArg, Option.some.injEq] at hp
        subst hp
        split
        · exact key a ha _ (Or.inr (Or.inl rfl))
        · exact key a ha _ (Or.inl rfl)
      · simp at he
    · split at he
      · simp only [List.mem_map] at he
        obtain ⟨a, ha, rfl⟩ := he
        simp only [Event.smoothReduceArg, Option.some.injEq] at hp
        subst hp
        split
        · exact key a ha _ (Or.inr (Or.inr rfl))
        · exact key a ha _ (Or.inl rfl)
      · simp at he
    · split at he
      · simp only [List.mem_map] at he
        obtain ⟨a, _, rfl⟩ := he
        simp [Event.smoothReduceArg] at hp
      · simp at he
  · rw [pipeline_eq, smoothReduceStages_eq]
    refine ⟨_, by rw [List.cons_append, ← List.append_assoc], ?_⟩
    intro e he
    simp only [List.mem_cons, List.mem_append] at he
    rcases he with he | (((he | he) | (he | he)) | he)
    · subst he; rfl
    · split at he
      · simp only [List.mem_singleton] at he; subst he; rfl
      · simp at he
    · split at he
      · simp only [List.mem_map] at he; obtain ⟨a, _, rfl⟩ := he; rfl
      · simp at he
    · split at he
      · simp only [List.mem_map] at he; obtain ⟨a, _, rfl⟩ := he; rfl
      · simp at he
    · split at he
      · simp only [List.mem_map] at he; obtain ⟨a, _, rfl⟩ := he; rfl
      · simp at he
    · split at he
      · simp only [List.mem_map] at he; obtain ⟨a, _, rfl⟩ := he; rfl
      · simp at he

/-- C1, witness: the theorem at the default configuration with slope tracing,
on the one-pixel bitmap; the marks show the stages in the order
`traceSlopes`, `smoothen`, `simplifyRDP`, `convertToCubicPath`. -/
theorem pipeline_stage_order_witness :
    (pipeline exampleEnv (defaultConfig exampleEnv "dot.png" 20 true) dotBitmap).2
        = [⟨400, 0⟩ :: ⟨300, 1 / 100⟩ :: ⟨200, 1 / 10⟩ :: ⟨100, 0⟩ :: unitSquare]
    ∧ (pipeline exampleEnv (defaultConfig exampleEnv "dot.png" 20 true) dotBitmap).1.filterMap
          Event.traceSlopesArg
        = [unitSquare] :=
  ⟨(pipeline_stage_order exampleEnv (defaultConfig exampleEnv "dot.png" 20 true) dotBitmap).1.trans
      (by simp [exampleEnv, dotBitmap, defaultConfig, specBezier, specSmoothReduce, specSlope]),
    ((pipeline_stage_order exampleEnv (defaultConfig exampleEnv "dot.png" 20 true)
      dotBitmap).2.1 rfl).trans (by simp [exampleEnv, dotBitmap])⟩

theorem pipeline_mem {F : Type} (env : Env F) (c : Config F) (map : Bitmap) (e : Event F)
    (he : e ∈ (pipeline env c map).1) :
    e = Event.findContours map
    ∨ (c.renderRaw = true ∧ e = Event.render_polylines (env.findContours map) ⟨255, 0, 0, 100⟩)
    ∨ (c.processTraceSlopes = true ∧ ∃ p, e = Event.traceSlopes p)
    ∨ (c.processSmooth = true ∧ ∃ p, e = Event.smoothen p c.smoothFactor c.smoothIterations)
    ∨ (c.processReduce = true ∧ ∃ p, e = Event.simplifyRDP p c.reduceThreshold)
    ∨ (c.processBezier = true ∧ ∃ p, e = Event.convertToCubicPath p) := by
  rw [pipeline_eq, smoothReduceStages_eq] at he
  simp only [List.mem_cons, List.mem_append] at he
  rcases he with he | ((((he | he) | ((he | he) | he)) | he))
  · exact Or.inl he
  · split at he
    · rename_i h
      simp only [List.mem_singleton] at he
      exact Or.inr (Or.inl ⟨h, he⟩)
    · simp at he
  · split at he
    · rename_i h
      simp only [List.mem_map] at he
      obtain ⟨a, _, rfl⟩ := he
      exact Or.inr (Or.inr (Or.inl ⟨h, a, rfl⟩))
    · simp at he
  · split at he
    · rename_i h
      simp only [List.mem_map] at he
      obtain ⟨a, _, rfl⟩ := he
      simp only [Bool.and_eq_true] at h
      exact Or.inr (Or.inr (Or.inr (Or.inl ⟨h.1, a, rfl⟩)))
    · simp at he
  · split at he
    · rename_i h
      simp only [List.mem_map] at he
      obtain ⟨a, _, rfl⟩ := he
      exact Or.inr (Or.inr (Or.inr (Or.inr (Or.inl ⟨h, _, rfl⟩))))
    · simp at he
  · split at he
    · rename_i h
      simp only [List.mem_map] at he
      obtain ⟨a, _, rfl⟩ := he
      simp only [Bool.and_eq_true] at h
      exact Or.inr (Or.inr (Or.inr (Or.inl ⟨h.1, _, rfl⟩)))
    · simp at he
  · split at he
    · rename_i h
      simp only [List.mem_map] at he
      obtain ⟨a, _, rfl⟩ := he
      exact Or.inr (Or.inr (Or.inr (Or.inr (Or.inr ⟨h, _, rfl⟩))))
    · simp at he

/-- C2 (the ordering flag, lines 328-364).  With smoothing enabled `smoothen`
is called exactly once for each polyline, in order (on the polyline itself when
the flag is set, on its reduction otherwise); with smoothing and reduction both
enabled every polyline becomes `simplifyRDP(smoothen(p, factor, iterations),
threshold)` when the flag is set and `smoothen(simplifyRDP(p, threshold),
factor, iterations)` when it is not; with smoothing disabled the flag changes
neither the calls nor the result, of these blocks and of the whole pipeline. -/
theorem smooth_reduce_order {F : Type} (env : Env F) (c : Config F)
    (polylines : List (Polyline F)) :
    (c.processSmooth = true →
      (smoothReduceStages env c polylines).1.filter Event.isSmoothen
        = polylines.map (fun p =>
            Event.smoothen
              (if c.processSmoothBeforeReduce = true then p
               else if c.processReduce = true then env.simplifyRDP p c.reduceThreshold else p)
              c.smoothFactor c.smoothIterations))
    ∧ (c.processSmooth = true → c.processReduce = true →
        c.processSmoothBeforeReduce = true →
        (smoothReduceStages env c polylines).2
          = polylines.map (fun p =>
              env.simplifyRDP (env.smoothen p c.smoothFactor c.smoothIterations)
                c.reduceThreshold))
    ∧ (c.processSmooth = true → c.processReduce = true →
        c.processSmoothBeforeReduce = false →
        (smoothReduceStages env c polylines).2
          = polylines.map (fun p =>
              env.smoothen (env.simplifyRDP p c.reduceThreshold)
                c.smoothFactor c.smoothIterations))
    ∧ (c.processSmooth = false → ∀ flag : Bool,
        smoothReduceStages env { c with processSmoothBeforeReduce := flag } polylines
          = smoothReduceStages env c polylines)
    ∧ (c.processSmooth = false → ∀ (flag : Bool) (map : Bitmap),
        pipeline env { c with processSmoothBeforeReduce := flag } map
          = pipeline env c map) := by
  obtain ⟨fl, sc, rg, rs, rr, rf, rst, rp, red, thr, sbr, sm, it, fac, ts, bez⟩ := c
  refine ⟨?_, ?_, ?_, ?_, ?_⟩
  · intro h
    simp only at h
    subst h
    rw [smoothReduceStages_eq]
    cases sbr <;> cases red <;>
      simp [List.filter_append, List.filter_map, Function.comp_def, Event.isSmoothen,
        List.filter_eq_nil_iff]
  · intro h1 h2 h3
    simp only at h1 h2 h3
    subst h1 h2 h3
    rw [smoothReduceStages_eq]
    simp [specSmoothReduce]
  · intro h1 h2 h3
    simp only at h1 h2 h3
    subst h1 h2 h3
    rw [smoothReduceStages_eq]
    simp [specSmoothReduce]
  · intro h flag
    simp only at h
    subst h
    rw [smoothReduceStages_eq, smoothReduceStages_eq]
    cases red <;> simp [specSmoothReduce]
  · intro h flag map
    simp only at h
    subst h
    rw [pipeline_eq, pipeline_eq, smoothReduceStages_eq, smoothReduceStages_eq]
    cases red <;> simp [specSmoothReduce, specSlope, specBezier]

/-- C2, witness: the theorem at one polyline, with the flag set and with the
flag not set. -/
theorem smooth_reduce_order_witness :
    (smoothReduceStages exampleEnv (defaultConfig exampleEnv "dot.png" 20 false)
        [unitSquare]).2
      = [⟨300, 1 / 100⟩ :: ⟨200, 1 / 10⟩ :: unitSquare]
    ∧ (smoothReduceStages exampleEnv outOfRangeConfig [unitSquare]).2
      = [⟨200, 2⟩ :: ⟨300, -1⟩ :: unitSquare] :=
  ⟨((smooth_reduce_order exampleEnv (defaultConfig exampleEnv "dot.png" 20 false)
      [unitSquare]).2.1 rfl rfl rfl).trans (by simp [exampleEnv, defaultConfig]),
    ((smooth_reduce_order exampleEnv outOfRangeConfig [unitSquare]).2.2.1 rfl rfl rfl).trans
      (by simp [exampleEnv, outOfRangeConfig])⟩

/-- C3 (disabled stages are pass-throughs, lines 304-374).  A stage whose
flag is off makes no call and hands on the polylines it received, unchanged in
content, count and order, and no call of that stage appears anywhere in the
pipeline; with trace-slopes, smooth, reduce and cubic-beziers all off, the
polylines handed to rendering are exactly the result of `findContours`. -/
theorem disabled_stages_pass_through {F : Type} (env : Env F) (c : Config F)
    (polylines : List (Polyline F)) (map : Bitmap) :
    (c.processTraceSlopes = false →
      traceSlopesStage env c polylines = ([], polylines)
      ∧ ∀ e ∈ (pipeline env c map).1, e.isTraceSlopes = false)
    ∧ (c.processSmooth = false →
      smoothFirstStage env c polylines = ([], polylines)
      ∧ smoothLastStage env c polylines = ([], polylines)
      ∧ ∀ e ∈ (pipeline env c map).1, e.isSmoothen = false)
    ∧ (c.processReduce = false →
      reduceStage env c polylines = ([], polylines)
      ∧ ∀ e ∈ (pipeline env c map).1, e.isSimplifyRDP = false)
    ∧ (c.processBezier = false →
      bezierStage env c polylines = ([], polylines)
      ∧ ∀ e ∈ (pipeline env c map).1, e.isBezier = false)
    ∧ (c.processTraceSlopes = false → c.processSmooth = false → c.processReduce = false →
        c.processBezier = false →
        (pipeline env c map).2 = env.findContours map
        ∧ ∀ (argv : List String) (log : List (Event F)) (handed : List (Polyline F)),
            mainFront env argv = .staged c map log handed → handed = env.findContours map) := by
  refine ⟨?_, ?_, ?_, ?_, ?_⟩
  · intro h
    refine ⟨by simp [traceSlopesStage, h], ?_⟩
    intro e he
    rcases pipeline_mem env c map e he with rfl | ⟨_, rfl⟩ | ⟨h', _⟩ | ⟨_, _, rfl⟩ | ⟨_, _, rfl⟩
      | ⟨_, _, rfl⟩
    · rfl
    · rfl
    · rw [h] at h'; cases h'
    · rfl
    · rfl
    · rfl
  · intro h
    refine ⟨by simp [smoothFirstStage, h], by simp [smoothLastStage, h], ?_⟩
    intro e he
    rcases pipeline_mem env c map e he with rfl | ⟨_, rfl⟩ | ⟨_, _, rfl⟩ | ⟨h', _⟩ | ⟨_, _, rfl⟩
      | ⟨_, _, rfl⟩
    · rfl
    · rfl
    · rfl
    · rw [h] at h'; cases h'
    · rfl
    · rfl
  · intro h
    refine ⟨by simp [reduceStage, h], ?_⟩
    intro e he
    rcases pipeline_mem env c map e he with rfl | ⟨_, rfl⟩ | ⟨_, _, rfl⟩ | ⟨_, _, rfl⟩ | ⟨h', _⟩
      | ⟨_, _, rfl⟩
    · rfl
    · rfl
    · rfl
    · rfl
    · rw [h] at h'; cases h'
    · rfl
  · intro h
    refine ⟨by simp [bezierStage, h], ?_⟩
    intro e he
    rcases pipeline_mem env c map e he with rfl | ⟨_, rfl⟩ | ⟨_, _, rfl⟩ | ⟨_, _, rfl⟩
      | ⟨_, _, rfl⟩ | ⟨h', _⟩
    · rfl
    · rfl
    · rfl
    · rfl
    · rfl
    · rw [h] at h'; cases h'
  · intro h1 h2 h3 h4
    have hp : ∀ m : Bitmap, (pipeline env c m).2 = env.findContours m := by
      intro m
      rw [pipeline_eq]
      simp [specSmoothReduce, specSlope, specBezier, h1, h2, h3, h4]
    refine ⟨hp map, ?_⟩
    intro argv log handed hst
    obtain ⟨c0, _, _, _, _, _, hpl⟩ := mainFront_staged env argv _ _ _ _ hst
    rw [hpl, hp]

/-- C3, witness: the theorem at a configuration with every stage off. -/
theorem disabled_stages_pass_through_witness :
    (pipeline exampleEnv { initConfig exampleEnv with file := "dot.png", renderStroke := true }
        dotBitmap).2 = [unitSquare]
    ∧ traceSlopesStage exampleEnv
        { initConfig exampleEnv with file := "dot.png", renderStroke := true } [triangle]
      = ([], [triangle]) :=
  ⟨((disabled_stages_pass_through exampleEnv
      { initConfig exampleEnv with file := "dot.png", renderStroke := true } [triangle]
      dotBitmap).2.2.2.2 rfl rfl rfl rfl).1.trans (by simp [exampleEnv, dotBitmap]),
    ((disabled_stages_pass_through exampleEnv
      { initConfig exampleEnv with file := "dot.png", renderStroke := true } [triangle]
      dotBitmap).1 rfl).1⟩

theorem pipeline_findContours_mem {F : Type} (env : Env F) (c : Config F) (map : Bitmap) :
    Event.findContours map ∈ (pipeline env c map).1 := by
  rw [pipeline_eq]
  exact List.mem_cons_self _ _

theorem mainFront_of_parse {F : Type} (env : Env F) (argv : List String) (c0 : Config F)
    (hp : (parseArgs env argv).1 = .ok c0) (hf : c0.file ≠ "") :
    mainFront env argv
      = .staged (chooseDefaults env c0) (env.loadBitmap (chooseDefaults env c0).file)
          ((if (chooseDefaults env c0).renderGrid = true then
              [Event.render_grid (env.loadBitmap (chooseDefaults env c0).file)] else [])
            ++ (if (chooseDefaults env c0).renderSource = true then
              [Event.render_bitmap (env.loadBitmap (chooseDefaults env c0).file)] else [])
            ++ (pipeline env (chooseDefaults env c0)
                  (env.loadBitmap (chooseDefaults env c0).file)).1)
          (pipeline env (chooseDefaults env c0)
            (env.loadBitmap (chooseDefaults env c0).file)).2 := by
  unfold mainFront
  rw [hp]
  simp only [if_neg hf]

theorem chooseDefaults_file {F : Type} (env : Env F) (c : Config F) :
    (chooseDefaults env c).file = c.file := by
  unfold chooseDefaults
  split <;> rfl

theorem parse_missing :
    (parseArgs exampleEnv ["depixelator", "--file", "missing.png"]).1
      = .ok { initConfig exampleEnv with file := "missing.png" } := by
  simp [parseArgs, optLoop, optStep, argvRead, fromLocal8Bit, hasNext, initConfig]

theorem mainRender_save_mem {F : Type} (fuel : Nat) (c : Config F)
    (polylines : List (Polyline F)) (rest : List (Event F))
    (h : mainRender fuel c polylines = some (some rest)) :
    Event.save "result.png" ∈ rest := by
  unfold mainRender at h
  cases hf : c.renderFill
  · simp only [hf, Bool.false_eq_true, if_false, Option.some.injEq] at h
    rw [← h]
    simp
  · cases hb : c.processBezier
    · simp only [hf, hb, Bool.false_eq_true, if_false, if_true, Option.some.injEq] at h
      rw [← h]
      simp
    · simp only [hf, hb, if_true] at h
      cases hr : render_fillCubicPath fuel polylines with
      | done path reads =>
        simp only [hr, Option.some.injEq] at h
        rw [← h]
        simp
      | undefined => simp [hr] at h
      | outOfFuel => simp [hr] at h

/-- C5, counterexample.  A file that fails to load gives a bitmap of width
and height 0; the run does not stop: the grid and the source are rendered,
`findContours` is called on that bitmap, the (empty) path is filled and
`result.save` is called. -/
theorem failed_load_still_traced :
    main 0 exampleEnv ["depixelator", "--file", "missing.png"]
      = some (.ran (defaultConfig exampleEnv "missing.png" 20 false)
          [Event.render_grid nullBitmap,
            Event.render_bitmap nullBitmap,
            Event.findContours nullBitmap,
            Event.fillPath [] ⟨0, 0, 0, 155⟩,
            Event.save "result.png"])
    ∧ nullBitmap.width = 0 ∧ nullBitmap.height = 0 := by
  refine ⟨?_, rfl, rfl⟩
  have hm := mainFront_of_parse exampleEnv _ _ parse_missing (by decide)
  unfold main
  rw [hm]
  simp [mainRender, pipeline, traceSlopesStage, smoothReduceStages, smoothFirstStage,
    reduceStage, smoothLastStage, bezierStage, stageLoop, chooseDefaults, initConfig,
    exampleEnv, render_fillCubicPath, fillCubicFrom, defaultConfig, nullBitmap]

/-- C5, as the code has it (lines 275-304 and 393-397): `main` makes no check of
the bitmap.  For every command line that the option loop reads to the end and
that names a file, whatever the width, height and stride of the bitmap built
from that file, `findContours` is called on it and its contours go through the
stages; and when the rendering that follows comes to its end, `main` returns
having called `result.save("result.png")`. -/
theorem no_grid_check {F : Type} (env : Env F) (argv : List String) (c0 : Config F)
    (hp : (parseArgs env argv).1 = .ok c0) (hf : c0.file ≠ "") :
    ∃ log polylines,
      mainFront env argv
        = .staged (chooseDefaults env c0) (env.loadBitmap c0.file) log polylines
      ∧ Event.findContours (env.loadBitmap c0.file) ∈ log
      ∧ polylines = (env.findContours (env.loadBitmap c0.file)).map (fun p =>
          specBezier env (chooseDefaults env c0)
            (specSmoothReduce env (chooseDefaults env c0)
              (specSlope env (chooseDefaults env c0) p)))
      ∧ ∀ fuel rest, mainRender fuel (chooseDefaults env c0) polylines = some (some rest) →
          main fuel env argv = some (.ran (chooseDefaults env c0) (log ++ rest))
          ∧ Event.save "result.png" ∈ rest := by
  have hm := mainFront_of_parse env argv c0 hp hf
  rw [chooseDefaults_file] at hm
  refine ⟨_, _, hm, ?_, ?_, ?_⟩
  · exact List.mem_append_right _ (pipeline_findContours_mem _ _ _)
  · rw [pipeline_eq]
  · intro fuel rest hr
    refine ⟨?_, mainRender_save_mem fuel _ _ rest hr⟩
    unfold main
    rw [hm]
    simp only [hr]

/-- C5, witness: the theorem at a file that fails to load. -/
theorem no_grid_check_witness :
    (parseArgs exampleEnv ["depixelator", "--file", "missing.png"]).1
      = .ok { initConfig exampleEnv with file := "missing.png" }
    ∧ (exampleEnv.loadBitmap "missing.png").width = 0
    ∧ ∃ log polylines,
      mainFront exampleEnv ["depixelator", "--file", "missing.png"]
        = .staged (chooseDefaults exampleEnv { initConfig exampleEnv with file := "missing.png" })
            (exampleEnv.loadBitmap "missing.png") log polylines
      ∧ Event.findContours (exampleEnv.loadBitmap "missing.png") ∈ log
      ∧ polylines = (exampleEnv.findContours (exampleEnv.loadBitmap "missing.png")).map
          (fun p =>
            specBezier exampleEnv
              (chooseDefaults exampleEnv { initConfig exampleEnv with file := "missing.png" })
              (specSmoothReduce exampleEnv
                (chooseDefaults exampleEnv { initConfig exampleEnv with file := "missing.png" })
                (specSlope exampleEnv
                  (chooseDefaults exampleEnv
                    { initConfig exampleEnv with file := "missing.png" }) p)))
      ∧ ∀ fuel rest,
          mainRender fuel
            (chooseDefaults exampleEnv { initConfig exampleEnv with file := "missing.png" })
            polylines = some (some rest) →
          main fuel exampleEnv ["depixelator", "--file", "missing.png"]
            = some (.ran
                (chooseDefaults exampleEnv { initConfig exampleEnv with file := "missing.png" })
                (log ++ rest))
          ∧ Event.save "result.png" ∈ rest :=
  ⟨parse_missing, rfl,
    no_grid_check exampleEnv ["depixelator", "--file", "missing.png"]
      { initConfig exampleEnv with file := "missing.png" } parse_missing (by decide)⟩

/-! ## The fill renderers -/

theorem fillPolyline_lineTo {F : Type} (rest : Polyline F) (path : List (PathCmd F)) :
    (rest.foldl
      (fun (st : Bool × List (PathCmd F)) pt =>
        if st.1 then (false, st.2 ++ [PathCmd.moveTo pt.x pt.y])
        else (false, st.2 ++ [PathCmd.lineTo pt.x pt.y]))
      (false, path)).2 = path ++ rest.map (fun q => PathCmd.lineTo q.x q.y) := by
  induction rest generalizing path with
  | nil => simp
  | cons p ps ih => simp [List.foldl_cons, ih]

theorem fillPolyline_eq {F : Type} (path : List (PathCmd F)) (poly : Polyline F) :
    fillPolyline path poly = path ++ specStraightEdges poly := by
  cases poly with
  | nil => simp [fillPolyline, specStraightEdges]
  | cons p ps =>
    simp only [fillPolyline, List.foldl_cons, if_true, specStraightEdges]
    rw [fillPolyline_lineTo]
    simp

theorem render_fillPolylines_from {F : Type} (polylines : List (Polyline F))
    (path : List (PathCmd F)) :
    polylines.foldl fillPolyline path = path ++ polylines.flatMap specStraightEdges := by
  induction polylines generalizing path with
  | nil => simp
  | cons p ps ih => simp [List.foldl_cons, ih, fillPolyline_eq]

theorem render_fillPolylines_eq {F : Type} (polylines : List (Polyline F)) :
    render_fillPolylines polylines = polylines.flatMap specStraightEdges := by
  unfold render_fillPolylines
  rw [render_fillPolylines_from]
  simp

theorem fillCubicPolyline_short {F : Type} (fuel : Nat) (path : List (PathCmd F))
    (poly : Polyline F) (h : poly.length < 4) :
    fillCubicPolyline fuel path poly = .done path [] := by
  unfold fillCubicPolyline
  rw [if_pos h]

theorem fillCubicFrom_filter {F : Type} (fuel : Nat) (polylines : List (Polyline F))
    (path : List (PathCmd F)) :
    fillCubicFrom fuel polylines path
      = fillCubicFrom fuel (polylines.filter (fun p => decide (4 ≤ p.length))) path := by
  induction polylines generalizing path with
  | nil => rfl
  | cons p ps ih =>
    by_cases h : 4 ≤ p.length
    · rw [List.filter_cons_of_pos (by simpa using h)]
      simp only [fillCubicFrom]
      cases fillCubicPolyline fuel path p with
      | done path' _ => exact ih path'
      | undefined => rfl
      | outOfFuel => rfl
    · rw [List.filter_cons_of_neg (by simpa using h)]
      simp only [fillCubicFrom]
      rw [fillCubicPolyline_short fuel path p (by omega)]
      exact ih path

/-- C6, counterexample.  With cubic-bezier conversion enabled and fill
requested, a polyline of three points adds nothing to the fill path, which
stays empty, whereas `render_fillPolylines` draws it as `moveTo`, `lineTo`,
`lineTo`. -/
theorem three_points_not_filled :
    mainRender 0 (defaultConfig exampleEnv "dot.png" 20 false) [triangle]
      = some (some [Event.fillPath [] ⟨0, 0, 0, 155⟩, Event.save "result.png"])
    ∧ render_fillPolylines [triangle]
      = [PathCmd.moveTo 0 0, PathCmd.lineTo 1 0, PathCmd.lineTo 0 1] := by
  constructor
  · simp [mainRender, defaultConfig, render_fillCubicPath, fillCubicFrom, fillCubicPolyline,
      triangle]
  · simp [render_fillPolylines_eq, specStraightEdges, triangle]

/-- C6, as the code has it (lines 115-132 and 376-382).  When fill rendering is
requested and cubic-bezier conversion is enabled, the fill path is built by
`render_fillCubicPath`, to which a polyline with fewer than 4 points adds no
command: the path is the one built from the polylines of at least 4 points
alone, and it is empty when every polyline is that short.  Polylines are
drawn as straight-edged shapes, a `moveTo` and then a `lineTo` for each further
point, when cubic-bezier conversion is disabled. -/
theorem short_polylines_skipped_in_cubic_fill {F : Type} (fuel : Nat) (c : Config F)
    (polylines : List (Polyline F)) (hfill : c.renderFill = true) :
    (c.processBezier = true →
      render_fillCubicPath fuel polylines
        = render_fillCubicPath fuel (polylines.filter (fun p => decide (4 ≤ p.length)))
      ∧ ((∀ p ∈ polylines, p.length < 4) →
          ∃ rest, mainRender fuel c polylines
            = some (some (Event.fillPath [] ⟨0, 0, 0, 155⟩ :: rest))))
    ∧ (c.processBezier = false →
      ∃ rest, mainRender fuel c polylines
        = some (some (Event.fillPath (polylines.flatMap specStraightEdges) ⟨0, 0, 0, 150⟩
            :: rest))) := by
  constructor
  · intro hb
    refine ⟨fillCubicFrom_filter fuel polylines [], ?_⟩
    intro hshort
    have hnil : polylines.filter (fun p => decide (4 ≤ p.length)) = [] := by
      rw [List.filter_eq_nil_iff]
      intro p hp
      have := hshort p hp
      simp only [decide_eq_true_eq]
      omega
    have hr : render_fillCubicPath fuel polylines = .done [] [] := by
      unfold render_fillCubicPath
      rw [fillCubicFrom_filter, hnil]
      rfl
    unfold mainRender
    simp only [hfill, hb, if_true, hr]
    exact ⟨_, rfl⟩
  · intro hb
    unfold mainRender
    simp only [hfill, hb, if_true, Bool.false_eq_true, if_false, render_fillPolylines_eq]
    exact ⟨_, rfl⟩

/-- C6, witness: the theorem at the default configuration and one triangle. -/
theorem short_polylines_skipped_witness :
    (defaultConfig exampleEnv "dot.png" 20 false).renderFill = true
    ∧ ∃ rest, mainRender 0 (defaultConfig exampleEnv "dot.png" 20 false) [triangle]
        = some (some (Event.fillPath [] ⟨0, 0, 0, 155⟩ :: rest)) :=
  ⟨rfl,
    ((short_polylines_skipped_in_cubic_fill 0 (defaultConfig exampleEnv "dot.png" 20 false)
      [triangle] rfl).1 rfl).2 (by simp [triangle])⟩

theorem uintModulus_pos : 0 < uintModulus := by
  unfold uintModulus
  norm_num

theorem cubicLoop_run {F : Type} (poly : Polyline F) (m : Nat)
    (hn : poly.length = 3 * m + 1) (hlt : poly.length < uintModulus) :
    ∀ d j, j + d = m → ∀ fuel, d + 1 ≤ fuel → ∀ (path : List (PathCmd F)) (reads : List Nat),
      ∃ cmds rs,
        cubicLoop poly fuel (3 * j + 1) path reads = .done (path ++ cmds) (reads ++ rs)
        ∧ cmds.length = d
        ∧ (∀ r ∈ rs, r < poly.length)
        ∧ ∀ t, t < d → ∃ a b c,
            poly[3 * (j + t) + 1]? = some a ∧ poly[3 * (j + t) + 2]? = some b
            ∧ poly[3 * (j + t) + 3]? = some c
            ∧ cmds[t]? = some (PathCmd.cubicTo a.x a.y b.x b.y c.x c.y) := by
  intro d
  induction d with
  | zero =>
    intro j hj fuel hfuel path reads
    obtain ⟨f, rfl⟩ : ∃ f, fuel = f + 1 := ⟨fuel - 1, by omega⟩
    refine ⟨[], [], ?_, rfl, by simp, by intro t ht; omega⟩
    have : ¬ (3 * j + 1 < poly.length) := by omega
    simp [cubicLoop, this]
  | succ d ih =>
    intro j hj fuel hfuel path reads
    obtain ⟨f, rfl⟩ : ∃ f, fuel = f + 1 := ⟨fuel - 1, by omega⟩
    have hi : 3 * j + 1 < poly.length := by omega
    have h0 : (3 * j + 1 + 0) % uintModulus = 3 * j + 1 := Nat.mod_eq_of_lt (by omega)
    have h1 : (3 * j + 1 + 1) % uintModulus = 3 * j + 2 := Nat.mod_eq_of_lt (by omega)
    have h2 : (3 * j + 1 + 2) % uintModulus = 3 * j + 3 := Nat.mod_eq_of_lt (by omega)
    have h3 : (3 * j + 1 + 3) % uintModulus = 3 * (j + 1) + 1 := Nat.mod_eq_of_lt (by omega)
    have hi1 : 3 * j + 2 < poly.length := by omega
    have hi2 : 3 * j + 3 < poly.length := by omega
    have ha : poly[3 * j + 1]? = some (poly[3 * j + 1]) := List.getElem?_eq_getElem hi
    have hb : poly[3 * j + 2]? = some (poly[3 * j + 2]) :=
      List.getElem?_eq_getElem (by omega)
    have hc : poly[3 * j + 3]? = some (poly[3 * j + 3]) :=
      List.getElem?_eq_getElem (by omega)
    obtain ⟨cmds, rs, hrun, hlen, hrs, hcmds⟩ := ih (j + 1) (by omega) f (by omega)
      (path ++ [PathCmd.cubicTo (poly[3 * j + 1]).x (poly[3 * j + 1]).y
        (poly[3 * j + 2]).x (poly[3 * j + 2]).y
        (poly[3 * j + 3]).x (poly[3 * j + 3]).y])
      (reads ++ [3 * j + 1, 3 * j + 2, 3 * j + 3])
    refine ⟨PathCmd.cubicTo (poly[3 * j + 1]).x (poly[3 * j + 1]).y
        (poly[3 * j + 2]).x (poly[3 * j + 2]).y
        (poly[3 * j + 3]).x (poly[3 * j + 3]).y :: cmds,
      [3 * j + 1, 3 * j + 2, 3 * j + 3] ++ rs, ?_, by simp [hlen], ?_, ?_⟩
    · rw [cubicLoop, if_pos hi]
      simp only [h0, h1, h2, h3, ha, hb, hc]
      rw [hrun]
      simp
    · intro r hr
      simp only [List.mem_append, List.mem_cons, List.mem_singleton, List.not_mem_nil,
        or_false] at hr
      rcases hr with (rfl | rfl | rfl) | hr
      · omega
      · omega
      · omega
      · exact hrs r hr
    · intro t ht
      cases t with
      | zero => exact ⟨_, _, _, ha, hb, hc, by simp⟩
      | succ t =>
        obtain ⟨a, b, c, h1', h2', h3', h4'⟩ := hcmds t (by omega)
        refine ⟨a, b, c, ?_, ?_, ?_, ?_⟩
        · rw [← h1']; congr 1; omega
        · rw [← h2']; congr 1; omega
        · rw [← h3']; congr 1; omega
        · simpa using h4'

theorem cubicLoop_wraps {F : Type} (poly : Polyline F) (hn : poly.length = uintModulus) :
    ∀ fuel i (path : List (PathCmd F)) (reads : List Nat), i < uintModulus →
      cubicLoop poly fuel i path reads = .outOfFuel := by
  intro fuel
  induction fuel with
  | zero => intro i path reads _; rfl
  | succ f ih =>
    intro i path reads hi
    have h0 : (i + 0) % uintModulus < poly.length := by
      rw [hn]; exact Nat.mod_lt _ uintModulus_pos
    have h1 : (i + 1) % uintModulus < poly.length := by
      rw [hn]; exact Nat.mod_lt _ uintModulus_pos
    have h2 : (i + 2) % uintModulus < poly.length := by
      rw [hn]; exact Nat.mod_lt _ uintModulus_pos
    rw [cubicLoop, if_pos (hn ▸ hi)]
    simp only [List.getElem?_eq_getElem h0, List.getElem?_eq_getElem h1,
      List.getElem?_eq_getElem h2]
    exact ih _ _ _ (Nat.mod_lt _ uintModulus_pos)

theorem fillCubicPolyline_wraps {F : Type} (poly : Polyline F)
    (hn : poly.length = uintModulus) (fuel : Nat) (path : List (PathCmd F)) :
    fillCubicPolyline fuel path poly = .outOfFuel := by
  have h4 : ¬ poly.length < 4 := by
    rw [hn]; unfold uintModulus; norm_num
  have h0 : 0 < poly.length := by
    rw [hn]; exact uintModulus_pos
  have h1 : 1 < uintModulus := by unfold uintModulus; norm_num
  rw [fillCubicPolyline, if_neg h4, List.getElem?_eq_getElem h0]
  exact cubicLoop_wraps poly hn fuel 1 _ _ h1

theorem hugePolyline_length : hugePolyline.length = uintModulus := by
  unfold hugePolyline
  rw [List.length_replicate]

/-- C8, counterexample.  A polyline of `2^32` points has `count >= 4` and
`(count - 1) mod 3 == 0`, and the loop of `render_fillCubicPath` never leaves
it: the `unsigned int` index wraps from `2^32 - 3` to `0` and stays below
`count`, so no amount of fuel brings the loop to its end. -/
theorem cubic_fill_loops_on_huge_polyline :
    4 ≤ hugePolyline.length
    ∧ (hugePolyline.length - 1) % 3 = 0
    ∧ ¬ ∃ fuel path reads, fillCubicPolyline fuel [] hugePolyline = .done path reads := by
  refine ⟨?_, ?_, ?_⟩
  · rw [hugePolyline_length]; unfold uintModulus; norm_num
  · rw [hugePolyline_length]; unfold uintModulus; norm_num
  · rintro ⟨fuel, path, reads, h⟩
    rw [fillCubicPolyline_wraps hugePolyline hugePolyline_length fuel []] at h
    cases h

/-- C8, as the code has it (lines 115-132).  For every polyline with
`4 <= count < 2^32` and `(count - 1) mod 3 == 0`, the loop of
`render_fillCubicPath` comes to its end (any fuel above `(count - 1) / 3`
suffices), every index it reads is less than `count`, and it adds to the path
one `moveTo` to point 0 followed by exactly `(count - 1) / 3` `cubicTo`
commands, the `k`-th with points `3k+1` and `3k+2` as controls and point `3k+3`
as anchor.  A polyline with fewer than 4 points adds no command. -/
theorem cubic_fill_in_bounds {F : Type} (poly : Polyline F) (path : List (PathCmd F)) :
    (4 ≤ poly.length → (poly.length - 1) % 3 = 0 → poly.length < uintModulus →
      ∀ fuel, (poly.length - 1) / 3 + 1 ≤ fuel →
        ∃ cmds reads,
          fillCubicPolyline fuel path poly = .done (path ++ cmds) reads
          ∧ (∀ r ∈ reads, r < poly.length)
          ∧ cmds.length = 1 + (poly.length - 1) / 3
          ∧ (∃ p0, poly[0]? = some p0 ∧ cmds[0]? = some (PathCmd.moveTo p0.x p0.y))
          ∧ ∀ k, k < (poly.length - 1) / 3 → ∃ a b c,
              poly[3 * k + 1]? = some a ∧ poly[3 * k + 2]? = some b
              ∧ poly[3 * k + 3]? = some c
              ∧ cmds[k + 1]? = some (PathCmd.cubicTo a.x a.y b.x b.y c.x c.y))
    ∧ (poly.length < 4 → ∀ fuel, fillCubicPolyline fuel path poly = .done path []) := by
  constructor
  · intro h4 hmod hlt fuel hfuel
    have hn : poly.length = 3 * ((poly.length - 1) / 3) + 1 := by omega
    have h0 : 0 < poly.length := by omega
    obtain ⟨cmds, rs, hrun, hlen, hrs, hcmds⟩ :=
      cubicLoop_run poly ((poly.length - 1) / 3) hn hlt ((poly.length - 1) / 3) 0 (by omega)
        fuel hfuel (path ++ [PathCmd.moveTo (poly[0]).x (poly[0]).y]) [0]
    refine ⟨PathCmd.moveTo (poly[0]).x (poly[0]).y :: cmds, [0] ++ rs, ?_, ?_, ?_, ?_, ?_⟩
    · rw [fillCubicPolyline, if_neg (by omega), List.getElem?_eq_getElem h0]
      simp only
      rw [show (1 : Nat) = 3 * 0 + 1 from rfl, hrun]
      simp
    · intro r hr
      simp only [List.mem_append, List.mem_singleton] at hr
      rcases hr with rfl | hr
      · exact h0
      · exact hrs r hr
    · simp [hlen]; omega
    · exact ⟨poly[0], List.getElem?_eq_getElem h0, by simp⟩
    · intro k hk
      obtain ⟨a, b, c, h1, h2, h3, h4'⟩ := hcmds k hk
      refine ⟨a, b, c, ?_, ?_, ?_, by simpa using h4'⟩
      · rw [← h1]; congr 1; omega
      · rw [← h2]; congr 1; omega
      · rw [← h3]; congr 1; omega
  · intro h fuel
    exact fillCubicPolyline_short fuel path poly h

/-- C8, witness: the theorem at a cubic path of seven points, on which the
loop runs twice. -/
theorem cubic_fill_in_bounds_witness :
    fillCubicPolyline 3 [] twoSegments
      = .done [PathCmd.moveTo 0 0, PathCmd.cubicTo 1 0 2 1 2 2, PathCmd.cubicTo 2 3 1 4 0 4]
          [0, 1, 2, 3, 4, 5, 6]
    ∧ ∃ cmds reads,
        fillCubicPolyline 3 [] twoSegments = .done ([] ++ cmds) reads
        ∧ (∀ r ∈ reads, r < twoSegments.length)
        ∧ cmds.length = 1 + (twoSegments.length - 1) / 3
        ∧ (∃ p0, twoSegments[0]? = some p0 ∧ cmds[0]? = some (PathCmd.moveTo p0.x p0.y))
        ∧ ∀ k, k < (twoSegments.length - 1) / 3 → ∃ a b c,
            twoSegments[3 * k + 1]? = some a ∧ twoSegments[3 * k + 2]? = some b
            ∧ twoSegments[3 * k + 3]? = some c
            ∧ cmds[k + 1]? = some (PathCmd.cubicTo a.x a.y b.x b.y c.x c.y) :=
  ⟨by simp [fillCubicPolyline, cubicLoop, twoSegments, uintModulus],
    (cubic_fill_in_bounds twoSegments []).1 (by decide) (by decide)
      (by simp [twoSegments, uintModulus]) 3 (by decide)⟩

/-! ## The option loop -/

theorem drop_eq_of_getElem? (argv : List String) (i : Nat) :
    argv.drop i = match argv[i]? with
      | some t => t :: argv.drop (i + 1)
      | none => [] := by
  by_cases h : i < argv.length
  · rw [List.getElem?_eq_getElem h]
    exact List.drop_eq_getElem_cons h
  · rw [List.getElem?_eq_none (by omega)]
    exact List.drop_eq_nil_of_le (by omega)

theorem hasNext_of_lt (argv : List String) (i : Nat) (h : i < argv.length) : hasNext argv i := by
  unfold hasNext
  omega

theorem optStep_reduce {F : Type} (env : Env F) (argv : List String) (i : Nat) (c : Config F)
    (h : argv[i]? = some "--reduce") :
    optStep env argv i c = ((reduceBranch env argv i c).1, i :: (reduceBranch env argv i c).2) := by
  have hi : i < argv.length := by
    by_contra hc
    rw [List.getElem?_eq_none (by omega)] at h
    cases h
  simp [optStep, argvRead, fromLocal8Bit, h]

theorem optStep_smooth {F : Type} (env : Env F) (argv : List String) (i : Nat) (c : Config F)
    (h : argv[i]? = some "--smooth") :
    optStep env argv i c = ((smoothBranch env argv i c).1, i :: (smoothBranch env argv i c).2) := by
  simp [optStep, argvRead, fromLocal8Bit, h]

theorem reduceBranch_spec {F : Type} (env : Env F) (argv : List String) (i : Nat) (c : Config F)
    (hi : i < argv.length) :
    ∃ k, (reduceBranch env argv i c).1
        = .next k { c with
            processReduce := true
            reduceThreshold := (specOptionalFloat env env.lit001 (argv.drop (i + 1))).1 }
      ∧ argv.drop (i + k + 1) = (specOptionalFloat env env.lit001 (argv.drop (i + 1))).2 := by
  unfold reduceBranch
  rw [if_pos (hasNext_of_lt argv i hi), drop_eq_of_getElem? argv (i + 1)]
  unfold toFloatAt argvRead
  cases h1 : argv[i + 1]? with
  | none => exact ⟨0, by simp [specOptionalFloat], by
      simp only [specOptionalFloat]
      rw [drop_eq_of_getElem? argv (i + 0 + 1), h1]⟩
  | some tok =>
    cases h2 : env.toFloat tok with
    | none => exact ⟨0, by simp [specOptionalFloat, h2], by
        simp only [specOptionalFloat, h2]
        rw [drop_eq_of_getElem? argv (i + 0 + 1), h1]⟩
    | some v => exact ⟨1, by simp [specOptionalFloat, h2], by simp [specOptionalFloat, h2]⟩

theorem smoothBranch_spec {F : Type} (env : Env F) (argv : List String) (i : Nat) (c : Config F)
    (hi : i < argv.length) :
    ∃ k, (smoothBranch env argv i c).1
        = .next k { c with
            processSmooth := true
            smoothFactor := (specOptionalFloat env env.lit01 (argv.drop (i + 1))).1
            smoothIterations :=
              (specOptionalInt env 1
                (specOptionalFloat env env.lit01 (argv.drop (i + 1))).2).1 }
      ∧ argv.drop (i + k + 1)
          = (specOptionalInt env 1
              (specOptionalFloat env env.lit01 (argv.drop (i + 1))).2).2 := by
  have hn := hasNext_of_lt argv i hi
  have hd1 := drop_eq_of_getElem? argv (i + 1)
  have hd2 := drop_eq_of_getElem? argv (i + 1 + 1)
  cases h1 : argv[i + 1]? with
  | none =>
    rw [h1] at hd1
    exact ⟨0, by simp [smoothBranch, toFloatAt, toIntAt, argvRead, specOptionalFloat,
      specOptionalInt, hn, h1, hd1], by simp [specOptionalFloat, specOptionalInt, hd1]⟩
  | some tok =>
    rw [h1] at hd1
    have hi1 : i + 1 < argv.length := by
      by_contra hc
      rw [List.getElem?_eq_none (by omega)] at h1
      cases h1
    have hn1 := hasNext_of_lt argv (i + 1) hi1
    cases h2 : env.toFloat tok with
    | none =>
      cases h3 : env.toInt tok with
      | none =>
        exact ⟨0, by simp [smoothBranch, toFloatAt, toIntAt, argvRead, specOptionalFloat,
          specOptionalInt, hn, h1, h2, h3, hd1],
          by simp [specOptionalFloat, specOptionalInt, hd1, h2, h3]⟩
      | some n =>
        exact ⟨1, by simp [smoothBranch, toFloatAt, toIntAt, argvRead, specOptionalFloat,
          specOptionalInt, hn, h1, h2, h3, hd1],
          by simp [specOptionalFloat, specOptionalInt, hd1, h2, h3]⟩
    | some v =>
      cases h4 : argv[i + 1 + 1]? with
      | none =>
        rw [h4] at hd2
        exact ⟨1, by simp [smoothBranch, toFloatAt, toIntAt, argvRead, specOptionalFloat,
          specOptionalInt, hn, hn1, h1, h2, h4, hd1, hd2],
          by simp [specOptionalFloat, specOptionalInt, hd1, hd2, h2]⟩
      | some tok2 =>
        rw [h4] at hd2
        cases h5 : env.toInt tok2 with
        | none =>
          exact ⟨1, by simp [smoothBranch, toFloatAt, toIntAt, argvRead, specOptionalFloat,
            specOptionalInt, hn, hn1, h1, h2, h4, h5, hd1, hd2],
            by simp [specOptionalFloat, specOptionalInt, hd1, hd2, h2, h5]⟩
        | some n =>
          exact ⟨2, by simp [smoothBranch, toFloatAt, toIntAt, argvRead, specOptionalFloat,
            specOptionalInt, hn, hn1, h1, h2, h4, h5, hd1, hd2],
            by simp [specOptionalFloat, specOptionalInt, hd1, hd2, h2, h5]⟩

theorem optLoop_step {F : Type} (env : Env F) (argv : List String) (i : Nat) (c : Config F)
    (reads : List Nat) (hi : i < argv.length) (k : Nat) (c' : Config F) (r : List Nat)
    (hs : optStep env argv i c = (.next k c', r)) :
    optLoop env argv i c reads = optLoop env argv (i + k + 1) c' (reads ++ r) := by
  rw [optLoop, if_pos hi, hs]

theorem optLoop_end {F : Type} (env : Env F) (argv : List String) (i : Nat) (c : Config F)
    (reads : List Nat) (hi : ¬ i < argv.length) :
    optLoop env argv i c reads = (.ok c, reads) := by
  rw [optLoop, if_neg hi]

/-- C7 (optional option values, lines 184-220).  In the pass of the option
loop at a `--reduce`, reduction is switched on, the threshold is the following
token when that token parses as a float and `0.01f` otherwise, and the loop
goes on with the tokens that remain after the value, if one was consumed.  At
a `--smooth`, smoothing is switched on, the factor is the following token when
it parses as a float and `0.1f` otherwise, the iteration count is the next
unconsumed token when it parses as an integer and `1` otherwise, and the loop
goes on with the tokens after the values consumed.  A token that did not
parse is therefore processed next as an option of its own: in
`--smooth --reduce`, when `--reduce` is no number, both options are
recognised with their default values. -/
theorem optional_option_values {F : Type} (env : Env F) (argv : List String) (i : Nat)
    (c : Config F) :
    (argv[i]? = some "--reduce" →
      ∃ k r,
        optStep env argv i c
          = (.next k { c with
              processReduce := true
              reduceThreshold := (specOptionalFloat env env.lit001 (argv.drop (i + 1))).1 }, r)
        ∧ argv.drop (i + k + 1) = (specOptionalFloat env env.lit001 (argv.drop (i + 1))).2)
    ∧ (argv[i]? = some "--smooth" →
      ∃ k r,
        optStep env argv i c
          = (.next k { c with
              processSmooth := true
              smoothFactor := (specOptionalFloat env env.lit01 (argv.drop (i + 1))).1
              smoothIterations :=
                (specOptionalInt env 1
                  (specOptionalFloat env env.lit01 (argv.drop (i + 1))).2).1 }, r)
        ∧ argv.drop (i + k + 1)
            = (specOptionalInt env 1
                (specOptionalFloat env env.lit01 (argv.drop (i + 1))).2).2)
    ∧ (∀ k c' r reads, i < argv.length → optStep env argv i c = (.next k c', r) →
        optLoop env argv i c reads = optLoop env argv (i + k + 1) c' (reads ++ r))
    ∧ (env.toFloat "--reduce" = none → env.toInt "--reduce" = none →
        ∀ app : String,
          (parseArgs env [app, "--smooth", "--reduce"]).1
            = .ok { initConfig env with
                processSmooth := true
                smoothFactor := env.lit01
                smoothIterations := 1
                processReduce := true
                reduceThreshold := env.lit001 }) := by
  refine ⟨?_, ?_, ?_, ?_⟩
  · intro h
    have hi : i < argv.length := by
      by_contra hc
      rw [List.getElem?_eq_none (by omega)] at h
      cases h
    obtain ⟨k, hk, hd⟩ := reduceBranch_spec env argv i c hi
    exact ⟨k, _, by rw [optStep_reduce env argv i c h, hk], hd⟩
  · intro h
    have hi : i < argv.length := by
      by_contra hc
      rw [List.getElem?_eq_none (by omega)] at h
      cases h
    obtain ⟨k, hk, hd⟩ := smoothBranch_spec env argv i c hi
    exact ⟨k, _, by rw [optStep_smooth env argv i c h, hk], hd⟩
  · intro k c' r reads hi hs
    exact optLoop_step env argv i c reads hi k c' r hs
  · intro h1 h2 app
    simp [parseArgs, optLoop, optStep, reduceBranch, smoothBranch, argvRead, fromLocal8Bit,
      hasNext, toFloatAt, toIntAt, initConfig, h1, h2]

/-- C7, witness: the theorem at `--smooth 0.5 3 --reduce 2`, where every value
is given, and at `--smooth --reduce`, where none is. -/
theorem optional_option_values_witness :
    (∃ k r,
        optStep exampleEnv ["depixelator", "--smooth", "0.5", "3", "--reduce", "2"] 1
            (initConfig exampleEnv)
          = (.next k { initConfig exampleEnv with
              processSmooth := true
              smoothFactor := 1 / 2
              smoothIterations := 3 }, r)
        ∧ (["depixelator", "--smooth", "0.5", "3", "--reduce", "2"].drop (1 + k + 1)
            = ["--reduce", "2"]))
    ∧ (parseArgs exampleEnv ["depixelator", "--smooth", "--reduce"]).1
        = .ok { initConfig exampleEnv with
            processSmooth := true
            smoothFactor := 1 / 10
            smoothIterations := 1
            processReduce := true
            reduceThreshold := 1 / 100 } :=
  ⟨(optional_option_values exampleEnv
      ["depixelator", "--smooth", "0.5", "3", "--reduce", "2"] 1 (initConfig exampleEnv)).2.1 rfl,
    (optional_option_values exampleEnv
      ["depixelator", "--smooth", "0.5", "3", "--reduce", "2"] 1 (initConfig exampleEnv)).2.2.2
        rfl rfl "depixelator"⟩

theorem reduceBranch_render_flags {F : Type} (env : Env F) (argv : List String) (i : Nat)
    (c c' : Config F) (k : Nat) (hi : i < argv.length)
    (hs : (reduceBranch env argv i c).1 = .next k c') :
    c'.renderGrid = c.renderGrid ∧ c'.renderSource = c.renderSource
    ∧ c'.renderRaw = c.renderRaw ∧ c'.renderFill = c.renderFill
    ∧ c'.renderStroke = c.renderStroke ∧ c'.renderPoints = c.renderPoints := by
  obtain ⟨k0, hk, _⟩ := reduceBranch_spec env argv i c hi
  rw [hk] at hs
  simp only [Step.next.injEq] at hs
  obtain ⟨_, rfl⟩ := hs
  simp

theorem smoothBranch_render_flags {F : Type} (env : Env F) (argv : List String) (i : Nat)
    (c c' : Config F) (k : Nat) (hi : i < argv.length)
    (hs : (smoothBranch env argv i c).1 = .next k c') :
    c'.renderGrid = c.renderGrid ∧ c'.renderSource = c.renderSource
    ∧ c'.renderRaw = c.renderRaw ∧ c'.renderFill = c.renderFill
    ∧ c'.renderStroke = c.renderStroke ∧ c'.renderPoints = c.renderPoints := by
  obtain ⟨k0, hk, _⟩ := smoothBranch_spec env argv i c hi
  rw [hk] at hs
  simp only [Step.next.injEq] at hs
  obtain ⟨_, rfl⟩ := hs
  simp

/-- A pass of the loop body on a token that is none of the six render flags
leaves the six render flags of the configuration as they were. -/
theorem optStep_render_flags {F : Type} (env : Env F) (argv : List String) (i : Nat)
    (c c' : Config F) (k : Nat) (r : List Nat)
    (hi : i < argv.length) (harg : fromLocal8Bit (argvRead argv i) ∉ renderFlagNames)
    (hs : optStep env argv i c = (.next k c', r)) :
    c'.renderGrid = c.renderGrid ∧ c'.renderSource = c.renderSource
    ∧ c'.renderRaw = c.renderRaw ∧ c'.renderFill = c.renderFill
    ∧ c'.renderStroke = c.renderStroke ∧ c'.renderPoints = c.renderPoints := by
  simp only [renderFlagNames, List.mem_cons, List.mem_singleton, List.not_mem_nil, or_false,
    not_or] at harg
  obtain ⟨g1, g2, g3, g4, g5, g6⟩ := harg
  unfold optStep at hs
  simp only [g1, g2, g3, g4, g5, g6, if_false] at hs
  split at hs
  · simp only [Prod.mk.injEq, Step.next.injEq] at hs
    obtain ⟨⟨_, rfl⟩, _⟩ := hs
    simp
  · split at hs
    · split at hs
      · simp only [Prod.mk.injEq, Step.next.injEq] at hs
        obtain ⟨⟨_, rfl⟩, _⟩ := hs
        simp
      · simp at hs
    · split at hs
      · simp only [Prod.mk.injEq, Step.next.injEq] at hs
        obtain ⟨⟨_, rfl⟩, _⟩ := hs
        simp
      · split at hs
        · simp only [Prod.mk.injEq, Step.next.injEq] at hs
          obtain ⟨⟨_, rfl⟩, _⟩ := hs
          simp
        · split at hs
          · simp only [Prod.mk.injEq, Step.next.injEq] at hs
            obtain ⟨⟨_, rfl⟩, _⟩ := hs
            simp
          · split at hs
            · simp only [Prod.mk.injEq] at hs
              exact reduceBranch_render_flags env argv i c c' k hi hs.1
            · split at hs
              · simp only [Prod.mk.injEq] at hs
                exact smoothBranch_render_flags env argv i c c' k hi hs.1
              · split at hs
                · simp at hs
                · simp only [Prod.mk.injEq, Step.next.injEq] at hs
                  obtain ⟨⟨_, rfl⟩, _⟩ := hs
                  simp

theorem optLoop_render_flags {F : Type} (env : Env F) (argv : List String)
    (hnone : ∀ j, 1 ≤ j → j < argv.length → fromLocal8Bit (argvRead argv j) ∉ renderFlagNames) :
    ∀ n i (c : Config F) (reads : List Nat) (c0 : Config F),
      argv.length - i = n → 1 ≤ i → (optLoop env argv i c reads).1 = .ok c0 →
        c0.renderGrid = c.renderGrid ∧ c0.renderSource = c.renderSource
        ∧ c0.renderRaw = c.renderRaw ∧ c0.renderFill = c.renderFill
        ∧ c0.renderStroke = c.renderStroke ∧ c0.renderPoints = c.renderPoints := by
  intro n
  induction n using Nat.strong_induction_on with
  | _ n ih =>
    intro i c reads c0 hn h1 hr
    by_cases hi : i < argv.length
    · rw [optLoop, if_pos hi] at hr
      split at hr
      · rename_i k c' r hs
        obtain ⟨g1, g2, g3, g4, g5, g6⟩ :=
          ih (argv.length - (i + k + 1)) (by omega) (i + k + 1) c' (reads ++ r) c0 rfl
            (by omega) hr
        obtain ⟨f1, f2, f3, f4, f5, f6⟩ :=
          optStep_render_flags env argv i c c' k r hi (hnone i h1 hi) hs
        exact ⟨g1.trans f1, g2.trans f2, g3.trans f3, g4.trans f4, g5.trans f5, g6.trans f6⟩
      · cases hr
      · cases hr
    · rw [optLoop_end env argv i c reads hi] at hr
      simp only [ParseResult.ok.injEq] at hr
      subst hr
      exact ⟨rfl, rfl, rfl, rfl, rfl, rfl⟩

theorem parse_processingArgs :
    (parseArgs exampleEnv processingArgs).1 = .ok processingConfig := by
  simp [processingArgs, processingConfig, parseArgs, optLoop, optStep, reduceBranch,
    smoothBranch, argvRead, fromLocal8Bit, hasNext, toFloatAt, toIntAt, exampleEnv,
    exampleToFloat, exampleToInt, initConfig]

/-- C10 (the default configuration, lines 232-255).  For every command line
that the option loop reads to its end, that names a file and holds none of
the six `--render-*` flags, the configuration in force is the fixed default
(grid, source and fill rendered, stroke, raw and points not; reduction on with
threshold `0.01f`; smoothing on with factor `0.1f` and 10 iterations;
smooth-before-reduce on; cubic beziers on), whatever `--reduce`, `--smooth`,
`--smooth-before-reduce` and `--cubic-beziers` the command line holds; the
file, the scale and the trace-slopes flag are those the option loop parsed, and
`main` runs the pipeline with that configuration. -/
theorem defaults_override_processing_options {F : Type} (env : Env F) (argv : List String)
    (c0 : Config F) (hp : (parseArgs env argv).1 = .ok c0) (hfile : c0.file ≠ "")
    (hnone : ∀ a ∈ argv.tail, a ∉ renderFlagNames) :
    chooseDefaults env c0
        = defaultConfig env c0.file c0.scaleFactor c0.processTraceSlopes
    ∧ ∃ log polylines,
        mainFront env argv
          = .staged (defaultConfig env c0.file c0.scaleFactor c0.processTraceSlopes)
              (env.loadBitmap c0.file) log polylines := by
  have hflags : ∀ j, 1 ≤ j → j < argv.length →
      fromLocal8Bit (argvRead argv j) ∉ renderFlagNames := by
    intro j h1 hj
    apply hnone
    have : argv[j]? = some argv[j] := List.getElem?_eq_getElem hj
    simp only [fromLocal8Bit, argvRead, this, Option.getD_some]
    cases argv with
    | nil => simp at hj
    | cons a rest =>
      obtain ⟨j', rfl⟩ : ∃ j', j = j' + 1 := ⟨j - 1, by omega⟩
      simp only [List.tail_cons, List.getElem_cons_succ]
      exact List.getElem_mem _
  obtain ⟨g1, g2, g3, g4, g5, g6⟩ :=
    optLoop_render_flags env argv hflags (argv.length - 1) 1 (initConfig env) [] c0 rfl
      (le_refl 1) hp
  have hd : chooseDefaults env c0
      = defaultConfig env c0.file c0.scaleFactor c0.processTraceSlopes := by
    simp only [initConfig] at g1 g2 g3 g4 g5 g6
    simp [chooseDefaults, defaultConfig, g1, g2, g3, g4, g5, g6]
  refine ⟨hd, ?_⟩
  have hm := mainFront_of_parse env argv c0 hp hfile
  rw [chooseDefaults_file, hd] at hm
  exact ⟨_, _, hm⟩

/-- C10, witness: the theorem at a command line that sets every processing
option and no render flag. -/
theorem defaults_override_witness :
    (parseArgs exampleEnv processingArgs).1 = .ok processingConfig
    ∧ processingConfig.reduceThreshold = 2
    ∧ processingConfig.processSmoothBeforeReduce = false
    ∧ chooseDefaults exampleEnv processingConfig = defaultConfig exampleEnv "dot.png" 3 true
    ∧ ∃ log polylines,
        mainFront exampleEnv processingArgs
          = .staged (defaultConfig exampleEnv "dot.png" 3 true)
              (exampleEnv.loadBitmap "dot.png") log polylines :=
  ⟨parse_processingArgs, rfl, rfl,
    defaults_override_processing_options exampleEnv processingArgs processingConfig
      parse_processingArgs (by decide) (by decide)⟩

theorem reduceBranch_reads {F : Type} (env : Env F) (argv : List String) (i : Nat)
    (c : Config F) (hi : i < argv.length) :
    ∀ r ∈ (reduceBranch env argv i c).2, r ≤ argv.length := by
  intro r hr
  unfold reduceBranch at hr
  simp only [hasNext_of_lt argv i hi, if_true] at hr
  split at hr <;> simp at hr <;> omega

theorem smoothBranch_reads {F : Type} (env : Env F) (argv : List String) (i : Nat)
    (c : Config F) (hi : i < argv.length) :
    ∀ r ∈ (smoothBranch env argv i c).2, r ≤ argv.length := by
  intro r hr
  have hn := hasNext_of_lt argv i hi
  cases h1 : argv[i + 1]? with
  | none =>
    simp [smoothBranch, toFloatAt, toIntAt, argvRead, hn, h1] at hr
    omega
  | some tok =>
    have hi1 : i + 1 < argv.length := by
      by_contra hc
      rw [List.getElem?_eq_none (by omega)] at h1
      cases h1
    have hn1 := hasNext_of_lt argv (i + 1) hi1
    cases h2 : env.toFloat tok with
    | none =>
      cases h3 : env.toInt tok with
      | none =>
        simp [smoothBranch, toFloatAt, toIntAt, argvRead, hn, h1, h2, h3] at hr
        omega
      | some n =>
        simp [smoothBranch, toFloatAt, toIntAt, argvRead, hn, h1, h2, h3] at hr
        omega
    | some v =>
      cases h4 : (argv[i + 1 + 1]?).bind env.toInt with
      | none =>
        simp [smoothBranch, toFloatAt, toIntAt, argvRead, hn, hn1, h1, h2, h4] at hr
        omega
      | some n =>
        simp [smoothBranch, toFloatAt, toIntAt, argvRead, hn, hn1, h1, h2, h4] at hr
        omega

theorem ite_snd_forall {α : Type} (p : Prop) [Decidable p] (a b : α × List Nat)
    (P : Nat → Prop) (ha : ∀ r ∈ a.2, P r) (hb : ∀ r ∈ b.2, P r) :
    ∀ r ∈ (if p then a else b).2, P r := by
  split
  · exact ha
  · exact hb

theorem optStep_reads {F : Type} (env : Env F) (argv : List String) (i : Nat)
    (c : Config F) (hi : i < argv.length) :
    ∀ r ∈ (optStep env argv i c).2, r ≤ argv.length := by
  have hR := reduceBranch_reads env argv i c hi
  have hS := smoothBranch_reads env argv i c hi
  have hscale : ∀ r ∈ (match argvRead argv (i + 1) with
      | some s => ((.next 1 { c with scaleFactor := env.atoi s }, [i, i + 1]) :
          Step F × List Nat)
      | none => (.undefined, [i, i + 1])).2, r ≤ argv.length := by
    intro r hr
    split at hr <;>
      (simp only [List.mem_cons, List.mem_singleton, List.not_mem_nil, or_false] at hr
       rcases hr with rfl | rfl <;> omega)
  unfold optStep
  simp only
  refine ite_snd_forall _ _ _ _ ?_ (ite_snd_forall _ _ _ _ hscale ?_)
  · intro r hr
    simp only [List.mem_cons, List.mem_singleton, List.not_mem_nil, or_false] at hr
    rcases hr with rfl | rfl <;> omega
  repeat' apply ite_snd_forall
  all_goals
    intro r hr
    simp only [List.mem_cons, List.mem_singleton, List.not_mem_nil, or_false] at hr
    first
      | omega
      | (rcases hr with rfl | hr
         · omega
         · first
           | exact hR r hr
           | exact hS r hr)

/-- Every index of `argv` that the option loop reads is at most `argc`: the
guard `i <= argc - 1` lets `argv[i+1]` reach the null pointer `argv[argc]` and
nothing beyond it. -/
theorem optLoop_reads_le {F : Type} (env : Env F) (argv : List String) :
    ∀ n i (c : Config F) (reads : List Nat), argv.length - i = n →
      (∀ r ∈ reads, r ≤ argv.length) →
      ∀ r ∈ (optLoop env argv i c reads).2, r ≤ argv.length := by
  intro n
  induction n using Nat.strong_induction_on with
  | _ n ih =>
    intro i c reads hn hreads
    by_cases hi : i < argv.length
    · have hstep := optStep_reads env argv i c hi
      rw [optLoop, if_pos hi]
      have hall : ∀ r ∈ reads ++ (optStep env argv i c).2, r ≤ argv.length := by
        intro r hr
        rcases List.mem_append.mp hr with h | h
        · exact hreads r h
        · exact hstep r h
      split
      · rename_i k c' r hs
        rw [hs] at hall
        exact ih (argv.length - (i + k + 1)) (by omega) (i + k + 1) c' (reads ++ r) rfl hall
      · rename_i r hs
        rw [hs] at hall
        exact hall
      · rename_i r hs
        rw [hs] at hall
        exact hall
    · rw [optLoop_end env argv i c reads hi]
      exact hreads

/-- C9, at the failing input.  With `--scale` as the last argument `argc` is
2 and the option loop reads `argv[1]` and then `argv[2]`, the null pointer
that ends `argv`, and hands it to `atoi`. -/
theorem scale_last_reads_argv_argc :
    parseArgs exampleEnv ["depixelator", "--scale"] = (.undefined, [1, 2])
    ∧ ["depixelator", "--scale"].length = 2
    ∧ argvRead ["depixelator", "--scale"] 2 = none := by
  refine ⟨?_, rfl, rfl⟩
  simp [parseArgs, optLoop, optStep, argvRead, fromLocal8Bit, hasNext]

/-! ## A whole run -/

/-- A whole run at the default configuration: one contour of four points goes
through smoothing, reduction and curve fitting, and the seven points that
result are filled as two cubic segments. -/
theorem main_default_run :
    main 3 exampleEnv ["depixelator", "--file", "dot.png"]
      = some (.ran (defaultConfig exampleEnv "dot.png" 20 false)
          [Event.render_grid dotBitmap,
            Event.render_bitmap dotBitmap,
            Event.findContours dotBitmap,
            Event.smoothen unitSquare (1 / 10) 10,
            Event.simplifyRDP (⟨200, 1 / 10⟩ :: unitSquare) (1 / 100),
            Event.convertToCubicPath (⟨300, 1 / 100⟩ :: ⟨200, 1 / 10⟩ :: unitSquare),
            Event.fillPath
              [PathCmd.moveTo 400 0,
                PathCmd.cubicTo 300 (1 / 100) 200 (1 / 10) 0 0,
                PathCmd.cubicTo 1 0 1 1 0 1] ⟨0, 0, 0, 155⟩,
            Event.save "result.png"]) := by
  have hp : (parseArgs exampleEnv ["depixelator", "--file", "dot.png"]).1
      = .ok { initConfig exampleEnv with file := "dot.png" } := by
    simp [parseArgs, optLoop, optStep, argvRead, fromLocal8Bit, hasNext, initConfig]
  have hm := mainFront_of_parse exampleEnv _ _ hp (by decide)
  unfold main
  rw [hm]
  simp [mainRender, pipeline, traceSlopesStage, smoothReduceStages, smoothFirstStage,
    reduceStage, smoothLastStage, bezierStage, stageLoop, chooseDefaults, initConfig,
    exampleEnv, render_fillCubicPath, fillCubicFrom, fillCubicPolyline, cubicLoop, defaultConfig,
    dotBitmap, unitSquare, uintModulus]

end Depixelator
